import Mathlib

/-!
# sources-api-go: authentication listing, RHC connections and the pause/resume cascade

A shallow embedding of

* `dao/authentication_db_dao.go` (`authenticationDaoDbImpl`),
* `dao/rhc_connection_dao.go` (`RhcConnectionDaoImpl`),
* `dao/endpoint_dao.go` (`endpointDaoImpl`),
* `dao/application_authentication_dao.go` (`applicationAuthenticationDaoImpl`),
* `source_handlers.go` (`SourcePause`, `SourceResume`, `SourceListAuthentications`),

over an in-memory relational store.  Go functions keep their names.  A Go
`(value, error)` result is a record with one field per returned value, `none`
standing for Go's `nil`.

## How the gorm query builder is modelled

`DB.Debug().Model(&m.Authentication{})` yields a `*gorm.DB` that owns a fresh
statement.  Chain methods (`Where`, `Limit`, `Offset`) called on that value
add their clause to this very statement and hand the same value back, so a
clause added before one finisher (`Count`) is still in force for the next
finisher (`Find`) run on the same variable.  `Query` is that statement; the
Go variable `query` is re-bound after every chain call on it.
-/

set_option autoImplicit false

namespace SourcesApi

/-! ## Errors -/

/-- Go `error` values the embedded code builds or passes on.
`notFound k` is `util.NewErrNotFound(k)`, `badRequest e` is
`util.NewErrBadRequest(e)`, `message s` is `errors.New(s)` or a `fmt.Errorf`
without `%w` (also an error reported by the store or by a collaborator),
`wrap s e` is `fmt.Errorf(s + ": %w", e)`, and `numError s r` is the
`*strconv.NumError` of `strconv.ParseInt` on input `s` (`r` tells an out-of-range
number from an ill-formed one). -/
inductive Error where
  | notFound (kind : String)
  | badRequest (cause : Error)
  | message (msg : String)
  | wrap (msg : String) (cause : Error)
  | numError (num : String) (outOfRange : Bool)
  deriving DecidableEq, Repr

/-! ## Data model (package `model`) -/

/-- Row of `applications` (`m.Application`): the columns the embedded code reads. -/
structure Application where
  ID : Int
  SourceID : Int
  TenantID : Int
  deriving DecidableEq, Repr

/-- Row of `sources` (`m.Source`).  `Applications` is the association gorm
fills on `Preload("Applications")`; it is empty on a stored row. -/
structure Source where
  ID : Int
  TenantID : Int
  Applications : List Application := []
  deriving DecidableEq, Repr

/-- Row of `endpoints` (`m.Endpoint`). -/
structure Endpoint where
  ID : Int
  SourceID : Int
  TenantID : Int
  Role : String
  Default : Bool
  deriving DecidableEq, Repr

/-- Row of `application_authentications` (`m.ApplicationAuthentication`). -/
structure ApplicationAuthentication where
  ID : Int
  ApplicationID : Int
  AuthenticationUID : String
  TenantID : Int
  deriving DecidableEq, Repr

/-- Row of `authentications` (`m.Authentication`).  `Extra` is the transient
field the enrichment hook fills; it is `none` on a row as it comes from the
store. -/
structure Authentication where
  ID : String
  AuthType : String
  ResourceType : String
  ResourceID : Int
  TenantID : Int
  Extra : Option String := none
  deriving DecidableEq, Repr

/-- Row of the join table `source_rhc_connections` (`m.SourceRhcConnection`). -/
structure SourceRhcConnection where
  SourceId : Int
  RhcConnectionId : Int
  TenantId : Int
  deriving DecidableEq, Repr

/-- Row of `rhc_connections` (`m.RhcConnection`).  `Sources` is an association:
it is never written with the row (`Omit(clause.Associations)`). -/
structure RhcConnection where
  ID : Int
  RhcId : String
  Extra : String
  Sources : List Source := []
  deriving DecidableEq, Repr

/-- One `util.Filter` as the handlers build it. -/
structure Filter where
  Name : String
  Value : List String
  deriving DecidableEq, Repr

/-! ## The relational store -/

/-- Tables of the store. -/
inductive Table where
  | sources
  | applications
  | endpoints
  | applicationAuthentications
  | authentications
  | rhcConnections
  | sourceRhcConnections
  deriving DecidableEq, Repr

/-- Contents of the tables. -/
structure Store where
  sources : List Source := []
  applications : List Application := []
  endpoints : List Endpoint := []
  applicationAuthentications : List ApplicationAuthentication := []
  authentications : List Authentication := []
  rhcConnections : List RhcConnection := []
  sourceRhcConnections : List SourceRhcConnection := []
  deriving DecidableEq, Repr

/-- One statement sent to the store, by kind and table.  The functions whose
statements matter to a property report the statements they issued, in order. -/
inductive StoreCall where
  | scan (t : Table)
  | count (t : Table)
  | find (t : Table)
  | first (t : Table)
  | insert (t : Table)
  | delete (t : Table)
  deriving DecidableEq, Repr

/-! ## gorm statements -/

/-- The statement behind a `*gorm.DB` built with `Model`: the `WHERE`
conditions in the order they were added, and the `LIMIT` and `OFFSET` clauses
(`0` when not set). -/
structure Query (α : Type) where
  conds : List (α → Bool) := []
  limit : Int := 0
  offset : Int := 0

namespace Query

variable {α : Type}

/-- `DB.Debug().Model(&m.X{})`: a statement without clauses. -/
def Model : Query α := {}

/-- `query.Where(cond)`. -/
def Where (q : Query α) (cond : α → Bool) : Query α :=
  { q with conds := q.conds ++ [cond] }

/-- `query.Limit(n)`. -/
def Limit (q : Query α) (n : Int) : Query α := { q with limit := n }

/-- `query.Offset(n)`. -/
def Offset (q : Query α) (n : Int) : Query α := { q with offset := n }

/-- A row satisfies the statement when it satisfies every condition. -/
def satisfies (q : Query α) (row : α) : Bool := q.conds.all (fun c => c row)

/-- The rows of `table` the `WHERE` clause selects. -/
def selected (q : Query α) (table : List α) : List α := table.filter q.satisfies

/-- `query.Count(&count)`: the number of selected rows. -/
def Count (q : Query α) (table : List α) : Int := ((q.selected table).length : Int)

/-- The page gorm asks for: `OFFSET` and `LIMIT` are written into the SQL only
when positive. -/
def page (limit offset : Int) (rows : List α) : List α :=
  let skipped := if 0 < offset then rows.drop offset.toNat else rows
  if 0 < limit then skipped.take limit.toNat else skipped

/-- `query.Find(&rows)`: the selected rows, paged. -/
def Find (q : Query α) (table : List α) : List α :=
  page q.limit q.offset (q.selected table)

end Query

/-! ## Collaborators of the authentication DAO -/

/-- Errors of the store driver: `scanError t` is the `Error` gorm reports for
a `Scan` on table `t`, and likewise for `Find`, `First`, `Create` (insert) and
`Delete`; `none` when the statement reaches the store and runs. -/
structure Driver where
  scanError : Table → Option Error
  findError : Table → Option Error
  firstError : Table → Option Error
  insertError : Table → Option Error
  deleteError : Table → Option Error

/-- What the authentication DAO takes from the rest of package `dao` and from
the store driver.  `κ` is the type of the marketplace token cacher.

* `applyFilters` is `dao.applyFilters` on an authentication statement;
* `setMarketplaceTokenAuthExtraField` is the enrichment hook: given the value
  of the package variable `marketplaceTokenCacher` and the struct behind the
  pointer it receives, it yields the struct as the hook leaves it, and its
  error;
* `GetMarketplaceTokenCacher` builds the cacher of a tenant;
* `DEFAULT_LIMIT`, `DEFAULT_OFFSET` are the package constants;
* `authenticationOtherBytes` is what the fields of `m.Authentication` other than
  `ID`, `ResourceType`, `ResourceID` and `TenantID` add to the size of the
  struct, whose declaration is not part of the sources at hand. -/
structure Env (κ : Type) extends Driver where
  applyFilters : Query Authentication → List Filter → Except Error (Query Authentication)
  setMarketplaceTokenAuthExtraField : κ → Authentication → Authentication × Option Error
  GetMarketplaceTokenCacher : Option Int → κ
  DEFAULT_LIMIT : Int
  DEFAULT_OFFSET : Int
  authenticationOtherBytes : Nat

/-- Receiver of the authentication DAO; `TenantID` is a `*int64`. -/
structure authenticationDaoDbImpl where
  TenantID : Option Int
  deriving DecidableEq, Repr

/-- Rows of `authentications`. -/
abbrev Authentications := List Authentication

/-- Filters of a listing call. -/
abbrev Filters := List Filter

/-- Statements issued, in order. -/
abbrev Trace := List StoreCall

/-- Result of a listing call `([]m.Authentication, int64, error)`, with what
the call did besides: `panic` is set when the Go code stops in a run-time
panic instead of returning, `trace` lists the statements issued, and
`marketplaceTokenCacher` is the package variable as the call leaves it. -/
structure ListOutcome (κ : Type) where
  rows : Option Authentications
  count : Int
  err : Option Error
  panic : Option String
  trace : Trace
  marketplaceTokenCacher : κ

variable {κ : Type}

/-- `maxAlloc` of the Go runtime on a 64-bit platform: the largest size in
bytes `make` hands to the allocator. -/
def maxAlloc : Int := 2 ^ 48

/-- Size in bytes of one `m.Authentication`: two strings (16 bytes each) and
two `int64` (8 bytes each) for `ID`, `ResourceType`, `ResourceID` and
`TenantID`, and the other fields. -/
def sizeofAuthentication (env : Env κ) : Int := ((48 + env.authenticationOtherBytes : Nat) : Int)

/-- `make([]m.Authentication, 0, limit)` panics (`makeslice: cap out of range`)
when the capacity is negative or the slice would be larger than `maxAlloc`. -/
def makesliceOutOfRange (env : Env κ) (limit : Int) : Prop :=
  limit < 0 ∨ maxAlloc < sizeofAuthentication env * limit

instance (env : Env κ) (limit : Int) : Decidable (makesliceOutOfRange env limit) := by
  unfold makesliceOutOfRange
  exact inferInstance

/-- A `return nil, 0, err`. -/
def ListOutcome.fail (err : Error) (trace : Trace) (cacher : κ) : ListOutcome κ :=
  { rows := none, count := 0, err := some err, panic := none, trace := trace,
    marketplaceTokenCacher := cacher }

/-- The run-time panic of `make([]T, 0, limit)` on a `limit` that is negative or
too large to allocate. -/
def ListOutcome.makeslicePanic (trace : Trace) (cacher : κ) : ListOutcome κ :=
  { rows := none, count := 0, err := none, panic := some "makeslice: cap out of range",
    trace := trace, marketplaceTokenCacher := cacher }

/-- A `return authentications, count, nil`. -/
def ListOutcome.ok (rows : Authentications) (count : Int) (trace : Trace) (cacher : κ) :
    ListOutcome κ :=
  { rows := some rows, count := count, err := none, panic := none, trace := trace,
    marketplaceTokenCacher := cacher }

/-- The loop of `List`:
`for i := 0; i < len(authentications); i++ { err := hook(&authentications[i]); ... }`.
The hook works on the slice element itself; the result is the slice after
the loop, or the first error. -/
def enrichElements (env : Env κ) (cacher : κ) : Authentications → Except Error Authentications
  | [] => .ok []
  | auth :: rest =>
    match env.setMarketplaceTokenAuthExtraField cacher auth with
    | (_, some err) => .error err
    | (enriched, none) =>
      match enrichElements env cacher rest with
      | .error err => .error err
      | .ok done => .ok (enriched :: done)

/-- The loop of the four `ListFor...` functions:
`for _, auth := range authentications { err := hook(&auth); ... }`.
`auth` is the loop variable, a copy of the element, and the hook works on that
copy: the slice is left as it was, and only the first error comes out. -/
def enrichLoopVariable (env : Env κ) (cacher : κ) : Authentications → Option Error
  | [] => none
  | auth :: rest =>
    match env.setMarketplaceTokenAuthExtraField cacher auth with
    | (_, some err) => some err
    | (_, none) => enrichLoopVariable env cacher rest

/-! ## `authenticationDaoDbImpl` (dao/authentication_db_dao.go) -/

/-- `tenant_id = ?` with the receiver's `*int64`: a nil pointer compares with
SQL `NULL` and selects nothing. -/
def tenantIs (tenant : Option Int) (a : Authentication) : Bool := some a.TenantID == tenant

/-- `resource_id = ?`. -/
def resourceIdIs (id : Int) (a : Authentication) : Bool := a.ResourceID == id

/-- `resource_type = '...'`. -/
def resourceTypeIs (kind : String) (a : Authentication) : Bool := a.ResourceType == kind

/-- `authenticationDaoDbImpl.List`.  `cacher` is the package variable
`marketplaceTokenCacher` when the call starts. -/
def authenticationDaoDbImpl.List (env : Env κ) (add : authenticationDaoDbImpl) (cacher : κ)
    (db : Store) (limit offset : Int) (filters : Filters) : ListOutcome κ :=
  let query : Query Authentication := Query.Model
  match env.applyFilters query filters with
  | .error err => ListOutcome.fail (.badRequest err) [] cacher
  | .ok query =>
    -- getting the total count (filters included) for pagination
    let count := query.Count db.authentications
    let trace : Trace := [.count .authentications]
    if makesliceOutOfRange env limit then
      ListOutcome.makeslicePanic trace cacher else
    -- `query.Debug()` opens a new session, so the clauses below go to a copy
    -- of the statement
    let paged := ((query.Where (tenantIs add.TenantID)).Limit limit).Offset offset
    let trace := trace ++ [.find .authentications]
    match env.findError .authentications with
    | some err => ListOutcome.fail (.badRequest err) trace cacher
    | none =>
      let authentications := paged.Find db.authentications
      let cacher := env.GetMarketplaceTokenCacher add.TenantID
      match enrichElements env cacher authentications with
      | .error err => ListOutcome.fail err trace cacher
      | .ok authentications => ListOutcome.ok authentications count trace cacher

/-- `authenticationDaoDbImpl.ListForSource`. -/
def authenticationDaoDbImpl.ListForSource (env : Env κ) (add : authenticationDaoDbImpl)
    (cacher : κ) (db : Store) (sourceID limit offset : Int) (filters : Filters) :
    ListOutcome κ :=
  -- Check that the source exists before continuing.
  let trace : Trace := [.scan .sources]
  match env.scanError .sources with
  | some err => ListOutcome.fail (.badRequest err) trace cacher
  | none =>
    let sourceExists :=
      db.sources.any (fun s => s.ID == sourceID && some s.TenantID == add.TenantID)
    if !sourceExists then ListOutcome.fail (.notFound "source") trace cacher else
    -- List and count all the authentications from the given source.
    let query : Query Authentication := Query.Model
    match env.applyFilters query filters with
    | .error err => ListOutcome.fail (.badRequest err) trace cacher
    | .ok query =>
      let query := ((query.Where (resourceIdIs sourceID)).Where (resourceTypeIs "Source")).Where
        (tenantIs add.TenantID)
      let count := query.Count db.authentications
      let trace := trace ++ [.count .authentications]
      if makesliceOutOfRange env limit then
      ListOutcome.makeslicePanic trace cacher else
      -- limiting + running the actual query.
      let query := (query.Limit limit).Offset offset
      let trace := trace ++ [.find .authentications]
      match env.findError .authentications with
      | some err => ListOutcome.fail (.badRequest err) trace cacher
      | none =>
        let authentications := query.Find db.authentications
        match enrichLoopVariable env cacher authentications with
        | some err => ListOutcome.fail err trace cacher
        | none => ListOutcome.ok authentications count trace cacher

/-- `authenticationDaoDbImpl.ListForApplication`. -/
def authenticationDaoDbImpl.ListForApplication (env : Env κ) (add : authenticationDaoDbImpl)
    (cacher : κ) (db : Store) (applicationID limit offset : Int) (filters : Filters) :
    ListOutcome κ :=
  -- Check that the application exists before continuing.
  let trace : Trace := [.scan .applications]
  match env.scanError .applications with
  | some err => ListOutcome.fail (.badRequest err) trace cacher
  | none =>
    let applicationExists :=
      db.applications.any (fun s => s.ID == applicationID && some s.TenantID == add.TenantID)
    if !applicationExists then ListOutcome.fail (.notFound "application") trace cacher else
    -- List and count all the authentications from the given application.
    let query : Query Authentication := Query.Model
    match env.applyFilters query filters with
    | .error err => ListOutcome.fail (.badRequest err) trace cacher
    | .ok query =>
      let query := ((query.Where (resourceIdIs applicationID)).Where
        (resourceTypeIs "Application")).Where (tenantIs add.TenantID)
      let count := query.Count db.authentications
      let trace := trace ++ [.count .authentications]
      if makesliceOutOfRange env limit then
      ListOutcome.makeslicePanic trace cacher else
      -- limiting + running the actual query.
      let query := (((((query.Where (resourceIdIs applicationID)).Where
        (resourceTypeIs "Application")).Where (tenantIs add.TenantID)).Limit limit).Offset offset)
      let trace := trace ++ [.find .authentications]
      match env.findError .authentications with
      | some err => ListOutcome.fail (.badRequest err) trace cacher
      | none =>
        let authentications := query.Find db.authentications
        match enrichLoopVariable env cacher authentications with
        | some err => ListOutcome.fail err trace cacher
        | none => ListOutcome.ok authentications count trace cacher

/-- `authenticationDaoDbImpl.ListForApplicationAuthentication`. -/
def authenticationDaoDbImpl.ListForApplicationAuthentication (env : Env κ)
    (add : authenticationDaoDbImpl) (cacher : κ) (db : Store) (appAuthID limit offset : Int)
    (filters : Filters) : ListOutcome κ :=
  -- Check that the application authentication exists before continuing.
  let trace : Trace := [.scan .applicationAuthentications]
  match env.scanError .applicationAuthentications with
  | some err => ListOutcome.fail (.badRequest err) trace cacher
  | none =>
    let applicationAuthenticationExists :=
      db.applicationAuthentications.any
        (fun s => s.ID == appAuthID && some s.TenantID == add.TenantID)
    if !applicationAuthenticationExists then
      ListOutcome.fail (.notFound "application authentication") trace cacher else
    -- List and count all the authentications from the given application authentications.
    let query : Query Authentication := Query.Model
    match env.applyFilters query filters with
    | .error err => ListOutcome.fail (.badRequest err) trace cacher
    | .ok query =>
      let query := ((query.Where (resourceIdIs appAuthID)).Where
        (resourceTypeIs "ApplicationAuthentication")).Where (tenantIs add.TenantID)
      let count := query.Count db.authentications
      let trace := trace ++ [.count .authentications]
      if makesliceOutOfRange env limit then
      ListOutcome.makeslicePanic trace cacher else
      -- limiting + running the actual query.
      let query := (((((query.Where (resourceIdIs appAuthID)).Where
        (resourceTypeIs "ApplicationAuthentication")).Where (tenantIs add.TenantID)).Limit
        limit).Offset offset)
      let trace := trace ++ [.find .authentications]
      match env.findError .authentications with
      | some err => ListOutcome.fail (.badRequest err) trace cacher
      | none =>
        let authentications := query.Find db.authentications
        match enrichLoopVariable env cacher authentications with
        | some err => ListOutcome.fail err trace cacher
        | none => ListOutcome.ok authentications count trace cacher

/-- `authenticationDaoDbImpl.ListForEndpoint`. -/
def authenticationDaoDbImpl.ListForEndpoint (env : Env κ) (add : authenticationDaoDbImpl)
    (cacher : κ) (db : Store) (endpointID limit offset : Int) (filters : Filters) :
    ListOutcome κ :=
  -- Check that the endpoint exists before continuing.
  let trace : Trace := [.scan .endpoints]
  match env.scanError .endpoints with
  | some err => ListOutcome.fail (.badRequest err) trace cacher
  | none =>
    let endpointExists :=
      db.endpoints.any (fun s => s.ID == endpointID && some s.TenantID == add.TenantID)
    if !endpointExists then ListOutcome.fail (.notFound "endpoint") trace cacher else
    -- List and count all the authentications from the given endpoint.
    let query : Query Authentication := Query.Model
    match env.applyFilters query filters with
    | .error err => ListOutcome.fail (.badRequest err) trace cacher
    | .ok query =>
      let query := ((query.Where (resourceIdIs endpointID)).Where
        (resourceTypeIs "Endpoint")).Where (tenantIs add.TenantID)
      let count := query.Count db.authentications
      let trace := trace ++ [.count .authentications]
      if makesliceOutOfRange env limit then
      ListOutcome.makeslicePanic trace cacher else
      -- limiting + running the actual query.
      let query := (((((query.Where (resourceIdIs endpointID)).Where
        (resourceTypeIs "Endpoint")).Where (tenantIs add.TenantID)).Limit limit).Offset offset)
      let trace := trace ++ [.find .authentications]
      match env.findError .authentications with
      | some err => ListOutcome.fail (.badRequest err) trace cacher
      | none =>
        let authentications := query.Find db.authentications
        match enrichLoopVariable env cacher authentications with
        | some err => ListOutcome.fail err trace cacher
        | none => ListOutcome.ok authentications count trace cacher

/-- Result of `AuthenticationsByResource`, `([]m.Authentication, error)`, with
the panic flag, the statements issued and the package variable. -/
structure ResourceOutcome (κ : Type) where
  rows : Option Authentications
  err : Option Error
  panic : Option String
  trace : Trace
  marketplaceTokenCacher : κ

/-- The tail of `AuthenticationsByResource`: the count is dropped,
`if err != nil { return nil, err }`, else the rows. -/
def ResourceOutcome.ofList (r : ListOutcome κ) : ResourceOutcome κ :=
  match r.panic with
  | some p => { rows := none, err := none, panic := some p, trace := r.trace,
                marketplaceTokenCacher := r.marketplaceTokenCacher }
  | none =>
    match r.err with
    | some err => { rows := none, err := some err, panic := none, trace := r.trace,
                    marketplaceTokenCacher := r.marketplaceTokenCacher }
    | none => { rows := r.rows, err := none, panic := none, trace := r.trace,
                marketplaceTokenCacher := r.marketplaceTokenCacher }

/-- `authenticationDaoDbImpl.AuthenticationsByResource`: the switch over
`authentication.ResourceType`. -/
def authenticationDaoDbImpl.AuthenticationsByResource (env : Env κ)
    (add : authenticationDaoDbImpl) (cacher : κ) (db : Store)
    (authentication : Authentication) : ResourceOutcome κ :=
  if authentication.ResourceType = "Source" then
    ResourceOutcome.ofList (add.ListForSource env cacher db authentication.ResourceID
      env.DEFAULT_LIMIT env.DEFAULT_OFFSET [])
  else if authentication.ResourceType = "Endpoint" then
    ResourceOutcome.ofList (add.ListForEndpoint env cacher db authentication.ResourceID
      env.DEFAULT_LIMIT env.DEFAULT_OFFSET [])
  else if authentication.ResourceType = "Application" then
    ResourceOutcome.ofList (add.ListForApplication env cacher db authentication.ResourceID
      env.DEFAULT_LIMIT env.DEFAULT_OFFSET [])
  else
    { rows := none,
      err := some (.message ("unable to fetch authentications for " ++ authentication.ResourceType)),
      panic := none, trace := [], marketplaceTokenCacher := cacher }

/-! ## `strconv.ParseInt(s, 10, 64)` -/

/-- Failure of the digit loop of `strconv.ParseUint`. -/
inductive NumFailure where
  | illFormed
  | outOfRange
  deriving DecidableEq, Repr

/-- The digit loop of `strconv.ParseUint(s, 10, 64)`: `n` is the value read so
far.  A character that is no decimal digit ends the loop at once; so does
a value that leaves the range of `uint64`. -/
def parseUintDigits : List Char → Nat → Except NumFailure Nat
  | [], n => .ok n
  | c :: cs, n =>
    if '0' ≤ c ∧ c ≤ '9' then
      let d := c.toNat - '0'.toNat
      -- cutoff is `maxUint64/10 + 1`: beyond it `n*10` overflows
      if n ≥ (2 ^ 64 - 1) / 10 + 1 then .error .outOfRange
      else
        let n1 := n * 10 + d
        if n1 ≥ 2 ^ 64 then .error .outOfRange else parseUintDigits cs n1
    else .error .illFormed

/-- `strconv.ParseUint(s, 10, 64)`. -/
def parseUint (s : List Char) : Except NumFailure Nat :=
  match s with
  | [] => .error .illFormed
  | _ => parseUintDigits s 0

/-- `strconv.ParseInt(s, 10, 64)`: an optional sign, then `ParseUint`, then the
check against the range of `int64`. -/
def ParseInt (s : String) : Except Error Int :=
  match s.toList with
  | [] => .error (.numError s false)
  | c :: cs =>
    let neg := c == '-'
    let digits := if c == '+' ∨ c == '-' then cs else c :: cs
    match parseUint digits with
    | .error .illFormed => .error (.numError s false)
    | .error .outOfRange => .error (.numError s true)
    | .ok un =>
      if !neg ∧ un ≥ 2 ^ 63 then .error (.numError s true)
      else if neg ∧ un > 2 ^ 63 then .error (.numError s true)
      else .ok (if neg then -(un : Int) else (un : Int))

/-! ## The pause / resume handlers (source_handlers.go) -/

/-- Kafka headers forwarded with an event. -/
abbrev Headers := List (String × String)

/-- Resource an event is raised for: the `m.Event` handed to `service.RaiseEvent`. -/
inductive EventResource where
  | source (s : Source)
  | application (a : Application)
  deriving DecidableEq, Repr

/-- One call `service.RaiseEvent(eventType, resource, headers)`. -/
structure RaisedEvent where
  eventType : String
  resource : EventResource
  headers : Headers
  deriving DecidableEq, Repr

/-- The methods of the interface `dao.SourceDao` the two handlers call, as the
DAO the request obtained answers them: `Pause id` and `Resume id` give the
error of the update, `GetByIdWithPreload id preloads` the reloaded source or
the error of the reload that follows the update. -/
structure SourceDao where
  Pause : Int → Option Error
  Resume : Int → Option Error
  GetByIdWithPreload : Int → List String → Except Error Source

/-- The part of `echo.Context` the handlers read: the path parameters. -/
structure Context where
  params : List (String × String)
  deriving DecidableEq, Repr

/-- `c.Param(name)`: the value of the path parameter, `""` when there is none. -/
def Context.Param (c : Context) (name : String) : String :=
  match c.params.find? (fun p => p.1 == name) with
  | some p => p.2
  | none => ""

/-- A response handed to `c.JSON(code, body)`; `body = none` is Go's `nil`. -/
structure Response where
  code : Nat
  body : Option String
  deriving DecidableEq, Repr

/-- Collaborators of the handlers.

* `getSourceDao` is the package variable of that name;
* `ForwadableHeaders` is `service.ForwadableHeaders`;
* `RaiseEvent log ev` is the error of `service.RaiseEvent` for the event `ev`
  when `log` lists the events this request raised before it, oldest first;
* `JSON r` is the error `c.JSON` returns for the response `r`. -/
structure HandlerEnv where
  getSourceDao : Context → Except Error SourceDao
  ForwadableHeaders : Context → Headers
  RaiseEvent : List RaisedEvent → RaisedEvent → Option Error
  JSON : Response → Option Error

/-- What a handler did: the `error` it returned, the response it handed to
`c.JSON` (if it got there), and the calls of `service.RaiseEvent` it made, in
order, the failed one included. -/
structure HandlerOutcome where
  err : Option Error
  response : Option Response
  events : List RaisedEvent
  deriving DecidableEq, Repr

/-- The event of the source itself. -/
def sourceEvent (eventType : String) (source : Source) (headers : Headers) : RaisedEvent :=
  { eventType := eventType, resource := .source source, headers := headers }

/-- The event of one application of the source. -/
def applicationEvent (eventType : String) (headers : Headers) (app : Application) :
    RaisedEvent :=
  { eventType := eventType, resource := .application app, headers := headers }

/-- The loop `for _, app := range source.Applications { err := service.RaiseEvent(...) ... }`.
`log` holds the events raised so far; the result is the log after the loop and
the error the loop returned with, if any. -/
def raiseApplicationEvents (env : HandlerEnv) (eventType : String) (headers : Headers) :
    List RaisedEvent → List Application → List RaisedEvent × Option Error
  | log, [] => (log, none)
  | log, app :: rest =>
    let ev := applicationEvent eventType headers app
    match env.RaiseEvent log ev with
    | some err => (log ++ [ev], some err)
    | none => raiseApplicationEvents env eventType headers (log ++ [ev]) rest

/-- `http.StatusNoContent`. -/
def StatusNoContent : Nat := 204

/-- `SourcePause`. -/
def SourcePause (env : HandlerEnv) (c : Context) : HandlerOutcome :=
  match ParseInt (c.Param "source_id") with
  | .error err => { err := some (.badRequest err), response := none, events := [] }
  | .ok sourceId =>
    match env.getSourceDao c with
    | .error err => { err := some err, response := none, events := [] }
    | .ok sourceDao =>
      match sourceDao.Pause sourceId with
      | some err => { err := some (.badRequest err), response := none, events := [] }
      | none =>
        match sourceDao.GetByIdWithPreload sourceId ["Applications"] with
        | .error err => { err := some err, response := none, events := [] }
        | .ok source =>
          -- Get the Kafka headers we will need to be forwarding.
          let kafkaHeaders := env.ForwadableHeaders c
          -- Raise the pause event for the source.
          let ev := sourceEvent "Source.Pause" source kafkaHeaders
          match env.RaiseEvent [] ev with
          | some err => { err := some err, response := none, events := [ev] }
          | none =>
            -- Raise the pause event for its applications
            match raiseApplicationEvents env "Application.Pause" kafkaHeaders [ev]
                source.Applications with
            | (events, some err) => { err := some err, response := none, events := events }
            | (events, none) =>
              { err := env.JSON { code := StatusNoContent, body := none },
                response := some { code := StatusNoContent, body := none }, events := events }

/-- `SourceResume`. -/
def SourceResume (env : HandlerEnv) (c : Context) : HandlerOutcome :=
  match ParseInt (c.Param "source_id") with
  | .error err => { err := some (.badRequest err), response := none, events := [] }
  | .ok sourceId =>
    match env.getSourceDao c with
    | .error err => { err := some err, response := none, events := [] }
    | .ok sourceDao =>
      match sourceDao.Resume sourceId with
      | some err => { err := some (.badRequest err), response := none, events := [] }
      | none =>
        match sourceDao.GetByIdWithPreload sourceId ["Applications"] with
        | .error err => { err := some err, response := none, events := [] }
        | .ok source =>
          -- Get the Kafka headers we will need to be forwarding.
          let kafkaHeaders := env.ForwadableHeaders c
          -- Raise the resume event for the source.
          let ev := sourceEvent "Source.Unpause" source kafkaHeaders
          match env.RaiseEvent [] ev with
          | some err => { err := some err, response := none, events := [ev] }
          | none =>
            -- Raise the resume event for its applications
            match raiseApplicationEvents env "Application.Unpause" kafkaHeaders [ev]
                source.Applications with
            | (events, some err) => { err := some err, response := none, events := events }
            | (events, none) =>
              { err := env.JSON { code := StatusNoContent, body := none },
                response := some { code := StatusNoContent, body := none }, events := events }

/-! ## `RhcConnectionDaoImpl` (dao/rhc_connection_dao.go) -/

/-- The store with what outlives a rolled-back transaction: `tables` are the
rows, `rhcConnectionsSeq` is the last value the id sequence of
`rhc_connections` gave out. -/
structure Database where
  tables : Store := {}
  rhcConnectionsSeq : Int := 0
  deriving DecidableEq, Repr

/-- Receiver of the RHC connection DAO; `TenantID` is an `int64`. -/
structure RhcConnectionDaoImpl where
  TenantID : Int
  deriving DecidableEq, Repr

/-- Result of `Create`, `(*m.RhcConnection, error)`, with the panic flag, the
database the call leaves and the statements issued. -/
structure CreateOutcome where
  rhcConnection : Option RhcConnection
  err : Option Error
  panic : Option String
  db : Database
  trace : Trace
  deriving DecidableEq, Repr

/-- The row `First` picks among `rows`: the one with the least primary key. -/
def firstByID (rows : List RhcConnection) : Option RhcConnection :=
  rows.foldl
    (fun best r =>
      match best with
      | none => some r
      | some b => if r.ID < b.ID then some r else some b)
    none

/-- Modelled from the spec: the constraints of table `rhc_connections`, whose
schema is not part of the sources at hand (`rhcId`, unique; `id` is the
primary key).  The result is the violation an insert of `row` runs into. -/
def rhcConnectionViolation (tables : Store) (row : RhcConnection) : Option Error :=
  if tables.rhcConnections.any (fun r => r.ID == row.ID) then
    some (.message "duplicate key value violates unique constraint on rhc_connections.id")
  else if tables.rhcConnections.any (fun r => r.RhcId == row.RhcId) then
    some (.message "duplicate key value violates unique constraint on rhc_connections.rhc_id")
  else none

/-- Modelled from the spec: the constraint of the join table
`source_rhc_connections`, whose schema is not part of the sources at hand (a
source is linked to a connection at most once). -/
def sourceRhcConnectionViolation (tables : Store) (row : SourceRhcConnection) : Option Error :=
  if tables.sourceRhcConnections.any
      (fun r => r.SourceId == row.SourceId && r.RhcConnectionId == row.RhcConnectionId) then
    some (.message "duplicate key value violates unique constraint on source_rhc_connections")
  else none

/-- Result of `FirstOrCreate` inside the transaction: the struct behind
`rhcConnection` as gorm leaves it, the error, the database, the statements. -/
structure FirstOrCreateOutcome where
  rhcConnection : RhcConnection
  err : Option Error
  db : Database
  trace : Trace
  deriving DecidableEq, Repr

/-- `tx.Where("rhc_id = ?", rhcConnection.RhcId).Omit(clause.Associations).FirstOrCreate(&rhcConnection)`.

gorm first looks for the row with the least id that has this `rhc_id` (and the
primary key of the struct, when that is set); a row found is read into the
struct, whose `Sources` stay as they are.  Else the struct is inserted without
its associations: its id is the one it carries, or the next value of the
sequence when it carries none. -/
def firstOrCreate (drv : Driver) (d : Database) (rhcConnection : RhcConnection) :
    FirstOrCreateOutcome :=
  let trace : Trace := [.first .rhcConnections]
  match drv.firstError .rhcConnections with
  | some err => { rhcConnection := rhcConnection, err := some err, db := d, trace := trace }
  | none =>
    let candidates := d.tables.rhcConnections.filter
      (fun r => r.RhcId == rhcConnection.RhcId &&
        (rhcConnection.ID == 0 || r.ID == rhcConnection.ID))
    match firstByID candidates with
    | some row =>
      { rhcConnection := { row with Sources := rhcConnection.Sources }, err := none, db := d,
        trace := trace }
    | none =>
      let trace := trace ++ [.insert .rhcConnections]
      match drv.insertError .rhcConnections with
      | some err => { rhcConnection := rhcConnection, err := some err, db := d, trace := trace }
      | none =>
        let seq := if rhcConnection.ID == 0 then d.rhcConnectionsSeq + 1 else d.rhcConnectionsSeq
        let id := if rhcConnection.ID == 0 then seq else rhcConnection.ID
        let row : RhcConnection := { rhcConnection with ID := id, Sources := [] }
        match rhcConnectionViolation d.tables row with
        | some err =>
          { rhcConnection := rhcConnection, err := some err,
            db := { d with rhcConnectionsSeq := seq }, trace := trace }
        | none =>
          { rhcConnection := { rhcConnection with ID := id }, err := none,
            db := { tables := { d.tables with
                      rhcConnections := d.tables.rhcConnections ++ [row] },
                    rhcConnectionsSeq := seq },
            trace := trace }

/-- `RhcConnectionDaoImpl.Create`.  The transaction either commits the tables
its body leaves or, when the body returns an error, puts back the tables it
started from. -/
def RhcConnectionDaoImpl.Create (drv : Driver) (s : RhcConnectionDaoImpl) (d : Database)
    (rhcConnection : RhcConnection) : CreateOutcome :=
  match rhcConnection.Sources with
  | [] =>
    { rhcConnection := none, err := none,
      panic := some "index out of range [0] with length 0", db := d, trace := [] }
  | source0 :: _ =>
    -- If the source doesn't exist we cannot create the RhcConnection, since it needs to be
    -- linked to at least one source.
    let trace : Trace := [.scan .sources]
    match drv.scanError .sources with
    -- Something went wrong with the query
    | some err => { rhcConnection := none, err := some err, panic := none, db := d, trace := trace }
    | none =>
      let sourceExists := d.tables.sources.any (fun src => src.ID == source0.ID)
      if !sourceExists then
        { rhcConnection := none, err := some (.notFound "source"), panic := none, db := d,
          trace := trace }
      else
        -- DB.Transaction(func(tx *gorm.DB) error { ... })
        let found := firstOrCreate drv d rhcConnection
        let trace := trace ++ found.trace
        match found.err with
        | some err =>
          { rhcConnection := some found.rhcConnection, err := some err, panic := none,
            db := { found.db with tables := d.tables }, trace := trace }
        | none =>
          let rhcConnection := found.rhcConnection
          -- Try to insert an association. If it exists the database will complain.
          let association : SourceRhcConnection :=
            { SourceId := source0.ID, RhcConnectionId := rhcConnection.ID, TenantId := s.TenantID }
          let trace := trace ++ [.insert .sourceRhcConnections]
          let failure :=
            match drv.insertError .sourceRhcConnections with
            | some err => some err
            | none => sourceRhcConnectionViolation found.db.tables association
          match failure with
          | some err =>
            { rhcConnection := some rhcConnection,
              err := some (.wrap "cannot link red hat connection to source" err), panic := none,
              db := { found.db with tables := d.tables }, trace := trace }
          | none =>
            { rhcConnection := some rhcConnection, err := none, panic := none,
              db := { found.db with tables := { found.db.tables with
                        sourceRhcConnections :=
                          found.db.tables.sourceRhcConnections ++ [association] } },
              trace := trace }

/-! ### `GetById` and `Delete` of the RHC connection DAO -/

/-- One row of the aggregation of `GetById`: the columns of `rhc_connections`
and the column `source_ids` built by `STRING_AGG`.  In Go it is a
`map[string]interface{}`. -/
structure AggregatedRow where
  id : Int
  rhc_id : String
  extra : String
  source_ids : String
  deriving DecidableEq, Repr

/-- The rows of the statement of `GetById`: `rhc_connections` joined with the
join rows `jt` on `rhc_connections.id = jt.rhc_connection_id`, where
`rhc_connections.id = id` and `jt.tenant_id = tenant`, grouped by
`rhc_connections.id`.  Every joined row has the id asked for, so there is at
most one group; its `source_ids` are the source ids of the joined rows,
separated by commas. -/
def aggregateById (tables : Store) (tenant id : Int) : List AggregatedRow :=
  let joined := tables.rhcConnections.flatMap (fun conn =>
    (tables.sourceRhcConnections.filter
      (fun jt => conn.ID == jt.RhcConnectionId && conn.ID == id && jt.TenantId == tenant)).map
      (fun jt => (conn, jt)))
  match joined with
  | [] => []
  | (conn, _) :: _ =>
    [{ id := conn.ID, rhc_id := conn.RhcId, extra := conn.Extra,
       source_ids := String.intercalate "," (joined.map (fun p => toString p.2.SourceId)) }]

/-- Errors of the row cursor of `GetById`: of `query.Rows()`, of `DB.ScanRows`
and of `result.Close()`; `none` when the call succeeds. -/
structure RowsDriver where
  rowsError : Option Error
  scanRowsError : Option Error
  closeError : Option Error

/-- Result of a `GetById`, `(*T, error)`. -/
structure GetOutcome (α : Type) where
  entity : Option α
  err : Option Error
  deriving DecidableEq, Repr

/-- `RhcConnectionDaoImpl.GetById` from `query.Rows()` on, for the rows `rows`
the statement yields.  `result.Next()` moves to the first row, and
`DB.ScanRows` then reads that row and all that follow into the slice.
`MapRowToRhcConnection` is the mapper of package `mappers`. -/
def getByIdOnRows (cur : RowsDriver)
    (MapRowToRhcConnection : AggregatedRow → Except Error RhcConnection)
    (rows : List AggregatedRow) : GetOutcome RhcConnection :=
  -- Run the actual query.
  match cur.rowsError with
  | some err => { entity := none, err := some err }
  | none =>
    if rows.isEmpty then { entity := none, err := some (.notFound "rhcConnection") } else
    -- Loop through the rows to map both the connection and its related sources.
    match cur.scanRowsError with
    | some err => { entity := none, err := some err }
    | none =>
      match cur.closeError with
      | some err => { entity := none, err := some err }
      | none =>
        match rows with
        | [row] =>
          match MapRowToRhcConnection row with
          | .error err => { entity := none, err := some err }
          | .ok rhcConnection => { entity := some rhcConnection, err := none }
        | _ => { entity := none, err := some (.message "unexpected number of results") }

/-- `RhcConnectionDaoImpl.GetById`. -/
def RhcConnectionDaoImpl.GetById (cur : RowsDriver)
    (MapRowToRhcConnection : AggregatedRow → Except Error RhcConnection)
    (s : RhcConnectionDaoImpl) (tables : Store) (id : Int) : GetOutcome RhcConnection :=
  getByIdOnRows cur MapRowToRhcConnection (aggregateById tables s.TenantID id)

/-- Result of `RhcConnectionDaoImpl.Delete`: the `error` and the database the
call leaves. -/
structure DeleteOutcome where
  err : Option Error
  db : Database
  deriving DecidableEq, Repr

/-- `RhcConnectionDaoImpl.Delete`.  `First` fails when no row has the id (or
when the driver fails), and every failure of it is answered with `NotFound`.
The delete removes the rows of `rhc_connections` with the id and, through the
foreign key of the join table, the join rows of that connection. -/
def RhcConnectionDaoImpl.Delete (drv : Driver) (_s : RhcConnectionDaoImpl) (d : Database)
    (id : Int) : DeleteOutcome :=
  let found :=
    match drv.firstError .rhcConnections with
    | some _ => false
    | none => d.tables.rhcConnections.any (fun r => r.ID == id)
  if !found then { err := some (.notFound "rhcConnection"), db := d } else
  -- The foreign key in the join table takes care of deleting the associated row.
  match drv.deleteError .rhcConnections with
  | some err => { err := some err, db := d }
  | none =>
    { err := none,
      db := { d with tables := { d.tables with
                rhcConnections := d.tables.rhcConnections.filter (fun r => r.ID != id),
                sourceRhcConnections :=
                  d.tables.sourceRhcConnections.filter (fun jt => jt.RhcConnectionId != id) } } }

/-! ## `First` on a table -/

/-- The row with the least key among `rows`, if there is one. -/
def firstByKey {α : Type} (key : α → Int) (rows : List α) : Option α :=
  rows.foldl
    (fun best r =>
      match best with
      | none => some r
      | some b => if key r < key b then some r else some b)
    none

/-- `DB.Where(...).First(&row)` on the rows `rows` the conditions select:
the error of the driver if it fails, gorm's `record not found` when no row is
selected, else the selected row with the least primary key. -/
def firstRow {α : Type} (driverError : Option Error) (key : α → Int) (rows : List α) :
    Except Error α :=
  match driverError with
  | some err => .error err
  | none =>
    match firstByKey key rows with
    | none => .error (.message "record not found")
    | some row => .ok row

/-! ## `GetById`, `Create` and `BulkCreate` of the authentication DAO -/

/-- `authenticationDaoDbImpl.GetById`.  The primary key of `authentications`
is not among the columns of `Authentication`; the table is listed in the
order of that key, so `First` takes the first row the conditions select.
Every failure of `First` is answered with `NotFound`. -/
def authenticationDaoDbImpl.GetById (env : Env κ) (add : authenticationDaoDbImpl) (cacher : κ)
    (db : Store) (id : String) : GetOutcome Authentication :=
  let selected :=
    match env.firstError .authentications with
    | some _ => none
    | none => (db.authentications.filter (fun a => a.ID == id && tenantIs add.TenantID a)).head?
  match selected with
  | none => { entity := none, err := some (.notFound "authentication") }
  | some authentication =>
    match env.setMarketplaceTokenAuthExtraField cacher authentication with
    | (_, some err) => { entity := none, err := some err }
    | (authentication, none) => { entity := some authentication, err := none }

/-- Result of `Create` of the authentication DAO: the struct behind the pointer
as the call leaves it, the `error`, the panic flag, the store and the
statements issued. -/
structure AuthenticationCreateOutcome where
  authentication : Authentication
  err : Option Error
  panic : Option String
  db : Store
  trace : Trace
  deriving DecidableEq, Repr

/-- `authenticationDaoDbImpl.Create`.  `*add.TenantID` panics on a nil pointer.
The transient field `Extra` is not written with the row. -/
def authenticationDaoDbImpl.Create (drv : Driver) (add : authenticationDaoDbImpl) (db : Store)
    (authentication : Authentication) : AuthenticationCreateOutcome :=
  match add.TenantID with
  | none =>
    { authentication := authentication, err := none,
      panic := some "invalid memory address or nil pointer dereference", db := db, trace := [] }
  | some tenant =>
    -- the TenantID gets injected in the middleware
    let authentication := { authentication with TenantID := tenant }
    match drv.insertError .authentications with
    | some err =>
      { authentication := authentication, err := some err, panic := none, db := db,
        trace := [.insert .authentications] }
    | none =>
      { authentication := authentication, err := none, panic := none,
        db := { db with
          authentications := db.authentications ++ [{ authentication with Extra := none }] },
        trace := [.insert .authentications] }

/-- `authenticationDaoDbImpl.BulkCreate`. -/
def authenticationDaoDbImpl.BulkCreate (drv : Driver) (add : authenticationDaoDbImpl)
    (db : Store) (auth : Authentication) : AuthenticationCreateOutcome :=
  add.Create drv db auth

/-! ## `endpointDaoImpl` (dao/endpoint_dao.go) -/

/-- Receiver of the endpoint DAO; `TenantID` is a `*int64`. -/
structure endpointDaoImpl where
  TenantID : Option Int
  deriving DecidableEq, Repr

/-- `endpointDaoImpl.GetById`: `DB.First(&app)` on a struct that carries the
id.  gorm adds the condition on the primary key only when the id of the
struct is not zero. -/
def endpointDaoImpl.GetById (drv : Driver) (_a : endpointDaoImpl) (db : Store) (id : Int) :
    GetOutcome Endpoint :=
  match firstRow (drv.firstError .endpoints) (fun e => e.ID)
      (db.endpoints.filter (fun e => id == 0 || e.ID == id)) with
  | .error _ => { entity := none, err := some (.notFound "endpoint") }
  | .ok app => { entity := some app, err := none }

/-- `endpointDaoImpl.CanEndpointBeSetAsDefaultForSource`. -/
def endpointDaoImpl.CanEndpointBeSetAsDefaultForSource (drv : Driver) (_a : endpointDaoImpl)
    (db : Store) (sourceId : Int) : Bool :=
  match firstRow (drv.firstError .endpoints) (fun e => e.ID)
      (db.endpoints.filter (fun e => e.Default == true && e.SourceID == sourceId)) with
  | .error _ => true
  | .ok _ => false

/-- `endpointDaoImpl.IsRoleUniqueForSource`. -/
def endpointDaoImpl.IsRoleUniqueForSource (drv : Driver) (_a : endpointDaoImpl) (db : Store)
    (role : String) (sourceId : Int) : Bool :=
  -- If the record doesn't exist "result.Error" will have a "record not found" error
  match firstRow (drv.firstError .endpoints) (fun e => e.ID)
      (db.endpoints.filter (fun e => e.Role == role && e.SourceID == sourceId)) with
  | .error _ => true
  | .ok _ => false

/-- `endpointDaoImpl.SourceHasEndpoints`. -/
def endpointDaoImpl.SourceHasEndpoints (drv : Driver) (_a : endpointDaoImpl) (db : Store)
    (sourceId : Int) : Bool :=
  match firstRow (drv.firstError .endpoints) (fun e => e.ID)
      (db.endpoints.filter (fun e => e.SourceID == sourceId)) with
  | .error _ => false
  | .ok _ => true

/-! ## `applicationAuthenticationDaoImpl` (dao/application_authentication_dao.go) -/

/-- Receiver of the application authentication DAO; `TenantID` is a `*int64`. -/
structure applicationAuthenticationDaoImpl where
  TenantID : Option Int
  deriving DecidableEq, Repr

/-- `applicationAuthenticationDaoImpl.GetById`: `DB.First(&appAuth)` on a struct
that carries the id. -/
def applicationAuthenticationDaoImpl.GetById (drv : Driver)
    (_a : applicationAuthenticationDaoImpl) (db : Store) (id : Int) :
    GetOutcome ApplicationAuthentication :=
  match firstRow (drv.firstError .applicationAuthentications) (fun e => e.ID)
      (db.applicationAuthentications.filter (fun e => id == 0 || e.ID == id)) with
  | .error _ => { entity := none, err := some (.notFound "application authentication") }
  | .ok appAuth => { entity := some appAuth, err := none }

/-! ## `SourceListAuthentications` (source_handlers.go) -/

/-- A run-time panic of a handler. -/
inductive Panic where
  | message (msg : String)
  | indexOutOfRange (index length : Nat)
  deriving DecidableEq, Repr

/-- What `SourceListAuthentications` hands to `c.JSON`: the error document of
the 404 answer, or the collection of the 200 answer with its count, limit
and offset. -/
inductive ListResponse where
  | errorDoc (code : Nat) (err : Error)
  | collection (code : Nat) (data : List String) (count limit offset : Int)
  deriving DecidableEq, Repr

/-- Collaborators of `SourceListAuthentications`: `getAuthenticationDao` is the
function of that name, `ToResponse` is `Authentication.ToResponse` (rendered),
`JSON r` is the error `c.JSON` returns for `r`. -/
structure ListHandlerEnv where
  getAuthenticationDao : Context → Except Error authenticationDaoDbImpl
  ToResponse : Authentication → String
  JSON : ListResponse → Option Error

/-- What `SourceListAuthentications` did: the `error` it returned, the response
it handed to `c.JSON`, or the panic it stopped in. -/
structure ListHandlerOutcome where
  err : Option Error
  response : Option ListResponse
  panic : Option Panic
  deriving DecidableEq, Repr

/-- The loop `for i := 0; i < int(count); i++ { out[i] = auths[i].ToResponse() }`:
`remaining` iterations are left, `i` is the index, `out` the elements written
so far.  `auths[i]` panics when `i` is not below `len(auths)`. -/
def fillOut (ToResponse : Authentication → String) (auths : Authentications) :
    Nat → Nat → List String → Except Panic (List String)
  | 0, _, out => .ok out
  | remaining + 1, i, out =>
    match auths[i]? with
    | none => .error (.indexOutOfRange i auths.length)
    | some auth => fillOut ToResponse auths remaining (i + 1) (out ++ [ToResponse auth])

/-- `http.StatusNotFound`. -/
def StatusNotFound : Nat := 404

/-- `http.StatusOK`. -/
def StatusOK : Nat := 200

/-- `SourceListAuthentications`. -/
def SourceListAuthentications (henv : ListHandlerEnv) (env : Env κ) (cacher : κ) (db : Store)
    (c : Context) : ListHandlerOutcome :=
  match henv.getAuthenticationDao c with
  | .error err => { err := some err, response := none, panic := none }
  | .ok authDao =>
    match ParseInt (c.Param "source_id") with
    | .error err => { err := some (.badRequest err), response := none, panic := none }
    | .ok sourceID =>
      let listed := authDao.ListForSource env cacher db sourceID 100 0 []
      match listed.panic with
      | some msg => { err := none, response := none, panic := some (.message msg) }
      | none =>
        match listed.err with
        | some err =>
          { err := henv.JSON (.errorDoc StatusNotFound err),
            response := some (.errorDoc StatusNotFound err), panic := none }
        | none =>
          let auths := listed.rows.getD []
          let count := listed.count
          if count < 0 then
            { err := none, response := none,
              panic := some (.message "makeslice: len out of range") }
          else
            match fillOut henv.ToResponse auths count.toNat 0 [] with
            | .error p => { err := none, response := none, panic := some p }
            | .ok out =>
              { err := henv.JSON (.collection StatusOK out count 100 0),
                response := some (.collection StatusOK out count 100 0), panic := none }

/-! ## Vocabulary of the statements about RHC connections -/

/-- The join row `jt` ties source `source` to connection `connection`. -/
def linked (source connection : Int) (jt : SourceRhcConnection) : Bool :=
  jt.SourceId == source && jt.RhcConnectionId == connection

/-- The join rows of connection `id` in tenant `tenant`. -/
def linksOf (tables : Store) (tenant id : Int) : List SourceRhcConnection :=
  tables.sourceRhcConnections.filter (fun jt => jt.RhcConnectionId == id && jt.TenantId == tenant)

/-- The row the aggregation makes of the connection `conn` and its join rows
`links`: the columns of the connection, and the source ids of the join rows
separated by commas. -/
def aggregatedRowOf (conn : RhcConnection) (links : List SourceRhcConnection) : AggregatedRow :=
  { id := conn.ID, rhc_id := conn.RhcId, extra := conn.Extra,
    source_ids := String.intercalate "," (links.map (fun jt => toString jt.SourceId)) }

/-! ## Vocabulary of the statements about listings -/

/-- The statement a `ListFor...` function counts with: what `applyFilters`
gave, then the three conditions on the owner and the tenant. -/
def ownerQuery (q : Query Authentication) (kind : String) (id : Int) (tenant : Option Int) :
    Query Authentication :=
  ((q.Where (resourceIdIs id)).Where (resourceTypeIs kind)).Where (tenantIs tenant)

/-- A listing outcome `r` is restricted to the owner `(kind, k)` in the tenant
of the DAO: whenever it carries rows, each of them has that resource type,
resource id and tenant, `applyFilters` gave a statement `q`, the count is the
number of rows of `authentications` that `q` and the owner conditions select,
and the rows are the requested page of exactly these selected rows. -/
def OwnerRestricted (env : Env κ) (add : authenticationDaoDbImpl) (db : Store) (kind : String)
    (k limit offset : Int) (filters : Filters) (r : ListOutcome κ) : Prop :=
  ∀ rows, r.rows = some rows →
    (∀ a ∈ rows, a.ResourceType = kind ∧ a.ResourceID = k ∧ some a.TenantID = add.TenantID) ∧
    ∃ q, env.applyFilters Query.Model filters = .ok q ∧
      r.count = (((ownerQuery q kind k add.TenantID).selected db.authentications).length : Int) ∧
      rows = Query.page limit offset
        ((ownerQuery q kind k add.TenantID).selected db.authentications)

/-- A listing outcome `r` gives up on the rows `fetched` when the hook fails on
one of them: it then carries a nil list and count 0, and its error is the
one the hook gave for the first row it failed on. -/
def AbortsOnFailedEnrichment (env : Env κ) (cacher : κ) (fetched : Authentications)
    (r : ListOutcome κ) : Prop :=
  (∃ a ∈ fetched, (env.setMarketplaceTokenAuthExtraField cacher a).2 ≠ none) →
    r.rows = none ∧ r.count = 0 ∧ r.panic = none ∧
    ∃ before a after e, fetched = before ++ a :: after ∧
      (∀ b ∈ before, (env.setMarketplaceTokenAuthExtraField cacher b).2 = none) ∧
      (env.setMarketplaceTokenAuthExtraField cacher a).2 = some e ∧ r.err = some e

/-! ## Vocabulary of the statements about the cascade -/

/-- The events of a whole cascade: the event of the source, then one event per
application, in the order of `source.Applications`, all with the same headers. -/
def cascadeEvents (parentType childType : String) (source : Source) (headers : Headers) :
    List RaisedEvent :=
  sourceEvent parentType source headers ::
    source.Applications.map (applicationEvent childType headers)

/-- The failure policy of a cascade, for the outcome `r` of a handler that got
as far as raising events for `source`.

* If raising the event of the source fails with `e`, then `r` returns `e`, the
  only event attempted is the one of the source, and no response is written.
* If `source.Applications` is `before ++ ak :: after`, the event of the source
  and the events of the applications in `before` are raised without error and
  raising the event of `ak` fails with `e`, then `r` returns `e`, the events
  attempted are the one of the source and those of `before ++ [ak]`, in this
  order, and no response is written. -/
def CascadeFailurePolicy (env : HandlerEnv) (parentType childType : String) (source : Source)
    (headers : Headers) (r : HandlerOutcome) : Prop :=
  (∀ e, env.RaiseEvent [] (sourceEvent parentType source headers) = some e →
    r.err = some e ∧ r.events = [sourceEvent parentType source headers] ∧ r.response = none) ∧
  (∀ before ak after e, source.Applications = before ++ ak :: after →
    env.RaiseEvent [] (sourceEvent parentType source headers) = none →
    (∀ b1 a b2, before = b1 ++ a :: b2 →
      env.RaiseEvent
        (sourceEvent parentType source headers :: b1.map (applicationEvent childType headers))
        (applicationEvent childType headers a) = none) →
    env.RaiseEvent
      (sourceEvent parentType source headers :: before.map (applicationEvent childType headers))
      (applicationEvent childType headers ak) = some e →
    r.err = some e ∧
      r.events = sourceEvent parentType source headers ::
        (before ++ [ak]).map (applicationEvent childType headers) ∧
      r.response = none)

/-! ## Concrete stores used by the worked examples -/

/-- Table a statement addresses. -/
def StoreCall.table : StoreCall → Table
  | .scan t => t
  | .count t => t
  | .find t => t
  | .first t => t
  | .insert t => t
  | .delete t => t

/-- A driver on which every statement runs. -/
def healthyDriver : Driver where
  scanError := fun _ => none
  findError := fun _ => none
  firstError := fun _ => none
  insertError := fun _ => none
  deleteError := fun _ => none

/-- Collaborators that never fail: no filter adds a condition, the hook fills
`Extra` of a `marketplace-token` row, every statement runs.  The cacher is
the tenant it was built for. -/
def plainEnv : Env (Option Int) where
  toDriver := healthyDriver
  applyFilters := fun q _ => .ok q
  setMarketplaceTokenAuthExtraField := fun _ a =>
    if a.AuthType = "marketplace-token" then ({ a with Extra := some "marketplace" }, none)
    else (a, none)
  GetMarketplaceTokenCacher := fun tenant => tenant
  DEFAULT_LIMIT := 100
  DEFAULT_OFFSET := 0
  authenticationOtherBytes := 352

/-- A store without any row. -/
def emptyStore : Store := {}

/-- The DAO of tenant 1. -/
def tenantOneDao : authenticationDaoDbImpl := { TenantID := some 1 }

/-- A store in which every owner with id 7 belongs to tenant 2. -/
def foreignOwnersStore : Store :=
  { sources := [{ ID := 7, TenantID := 2 }],
    applications := [{ ID := 7, SourceID := 7, TenantID := 2 }],
    endpoints := [{ ID := 7, SourceID := 7, TenantID := 2, Role := "first", Default := true }],
    applicationAuthentications :=
      [{ ID := 7, ApplicationID := 7, AuthenticationUID := "u7", TenantID := 2 }],
    authentications :=
      [{ ID := "u7", AuthType := "password", ResourceType := "Source", ResourceID := 7,
         TenantID := 2 }] }

/-- An authentication owned by application authentication 5 of tenant 1. -/
def appAuthOwned : Authentication :=
  { ID := "u2", AuthType := "password", ResourceType := "ApplicationAuthentication",
    ResourceID := 5, TenantID := 1 }

/-- A store of tenant 1 with application authentication 5 and the authentication it owns. -/
def appAuthStore : Store :=
  { applicationAuthentications :=
      [{ ID := 5, ApplicationID := 3, AuthenticationUID := "u1", TenantID := 1 }],
    authentications := [appAuthOwned] }

/-- The authentication of source 1 in tenant 1. -/
def ownAuthentication : Authentication :=
  { ID := "a1", AuthType := "password", ResourceType := "Source", ResourceID := 1, TenantID := 1 }

/-- Two tenants: source 1 of tenant 1 owns `ownAuthentication`; the other rows
have the same resource id in another tenant, another owner kind, or another
owner id. -/
def twoTenantStore : Store :=
  { sources := [{ ID := 1, TenantID := 1 }, { ID := 2, TenantID := 1 }],
    endpoints := [{ ID := 1, SourceID := 2, TenantID := 2, Role := "first", Default := true }],
    authentications :=
      [{ ID := "a2", AuthType := "password", ResourceType := "Source", ResourceID := 1,
         TenantID := 2 },
       ownAuthentication,
       { ID := "a3", AuthType := "password", ResourceType := "Endpoint", ResourceID := 1,
         TenantID := 1 },
       { ID := "a4", AuthType := "password", ResourceType := "Source", ResourceID := 2,
         TenantID := 1 }] }

/-- A request for source 1. -/
def sourceOneRequest : Context := { params := [("source_id", "1")] }

/-- Source 1 as reloaded, with two applications. -/
def sourceWithTwoApplications : Source :=
  { ID := 1, TenantID := 1,
    Applications := [{ ID := 10, SourceID := 1, TenantID := 1 },
                     { ID := 11, SourceID := 1, TenantID := 1 }] }

/-- A DAO whose update and reload succeed. -/
def workingSourceDao : SourceDao where
  Pause := fun _ => none
  Resume := fun _ => none
  GetByIdWithPreload := fun _ _ => .ok sourceWithTwoApplications

/-- Handler collaborators that all succeed. -/
def workingHandlerEnv : HandlerEnv where
  getSourceDao := fun _ => .ok workingSourceDao
  ForwadableHeaders := fun _ => [("x-rh-identity", "abc")]
  RaiseEvent := fun _ _ => none
  JSON := fun _ => none

/-- As `workingHandlerEnv`, with a sink that fails once two events were raised. -/
def failingSinkEnv : HandlerEnv :=
  { workingHandlerEnv with
    RaiseEvent := fun log _ => if log.length = 2 then some (.message "sink down") else none }

/-- As `workingHandlerEnv`, with a DAO whose update reports that the source is missing. -/
def missingSourceEnv : HandlerEnv :=
  { workingHandlerEnv with
    getSourceDao := fun _ => .ok
      { workingSourceDao with
        Pause := fun _ => some (.notFound "source")
        Resume := fun _ => some (.notFound "source") } }

/-- As `workingHandlerEnv`, with a DAO whose reload reports that the source is missing. -/
def missingOnReloadEnv : HandlerEnv :=
  { workingHandlerEnv with
    getSourceDao := fun _ => .ok
      { workingSourceDao with GetByIdWithPreload := fun _ _ => .error (.notFound "source") } }

/-- The four authentications of `marketplaceStore`, one per owner kind, all with
a managed credential. -/
def tokenOf (kind : String) : Authentication :=
  { ID := "t-" ++ kind, AuthType := "marketplace-token", ResourceType := kind, ResourceID := 1,
    TenantID := 1 }

/-- Tenant 1 with one owner of each kind, id 1, each owning one
`marketplace-token` authentication. -/
def marketplaceStore : Store :=
  { sources := [{ ID := 1, TenantID := 1 }],
    applications := [{ ID := 1, SourceID := 1, TenantID := 1 }],
    endpoints := [{ ID := 1, SourceID := 1, TenantID := 1, Role := "first", Default := true }],
    applicationAuthentications :=
      [{ ID := 1, ApplicationID := 1, AuthenticationUID := "t-Source", TenantID := 1 }],
    authentications :=
      [tokenOf "Source", tokenOf "Endpoint", tokenOf "Application",
       tokenOf "ApplicationAuthentication"] }

/-- As `plainEnv`, with a hook that cannot reach the marketplace. -/
def unreachableMarketplaceEnv : Env (Option Int) :=
  { plainEnv with
    setMarketplaceTokenAuthExtraField := fun _ a =>
      if a.AuthType = "marketplace-token" then
        (a, some (.message "the marketplace host is not found"))
      else (a, none) }

/-- Source 1 of tenant 1 with a password authentication followed by a
`marketplace-token` one. -/
def mixedStore : Store :=
  { sources := [{ ID := 1, TenantID := 1 }],
    authentications := [ownAuthentication, tokenOf "Source"] }

/-- The RHC connection DAO of tenant 1. -/
def rhcDaoTenantOne : RhcConnectionDaoImpl := { TenantID := 1 }

/-- A database whose only source, 1, belongs to tenant 2. -/
def tenantTwoSourceDb : Database := { tables := { sources := [{ ID := 1, TenantID := 2 }] } }

/-- A new connection to be linked to source 1. -/
def newConnection : RhcConnection :=
  { ID := 0, RhcId := "rhc-1", Extra := "{}", Sources := [{ ID := 1, TenantID := 0 }] }

/-- A database of tenant 1 with sources 1 and 2 and no connection. -/
def linkedStore : Database :=
  { tables := { sources := [{ ID := 1, TenantID := 1 }, { ID := 2, TenantID := 1 }] } }

/-- A driver on which the insert into the join table fails. -/
def brokenLinkDriver : Driver :=
  { healthyDriver with
    insertError := fun t =>
      if t = .sourceRhcConnections then some (.message "connection reset") else none }

/-- A cursor on which every call succeeds. -/
def healthyRows : RowsDriver := { rowsError := none, scanRowsError := none, closeError := none }

/-- A mapper that copies the columns of the connection. -/
def columnsMapper (row : AggregatedRow) : Except Error RhcConnection :=
  .ok { ID := row.id, RhcId := row.rhc_id, Extra := row.extra }

/-- A database in which connection 1 is linked to source 1 of tenant 2 only. -/
def foreignLinkDb : Database :=
  { tables :=
      { sources := [{ ID := 1, TenantID := 2 }],
        rhcConnections := [{ ID := 1, RhcId := "rhc-1", Extra := "{}" }],
        sourceRhcConnections := [{ SourceId := 1, RhcConnectionId := 1, TenantId := 2 }] },
    rhcConnectionsSeq := 1 }

/-- The endpoint DAO of tenant 1. -/
def endpointDaoTenantOne : endpointDaoImpl := { TenantID := some 1 }

/-- The application authentication DAO of tenant 1. -/
def appAuthDaoTenantOne : applicationAuthenticationDaoImpl := { TenantID := some 1 }

/-- An authentication a caller of tenant 1 hands to `Create`, stamped with
another tenant and owned by a source that does not exist. -/
def orphanAuthentication : Authentication :=
  { ID := "new", AuthType := "password", ResourceType := "Source", ResourceID := 99,
    TenantID := 5 }

/-- Endpoints of two sources. -/
def endpointsStore : Store :=
  { endpoints :=
      [{ ID := 1, SourceID := 1, TenantID := 1, Role := "first", Default := true },
       { ID := 2, SourceID := 2, TenantID := 1, Role := "second", Default := false }] }

/-- Source 1 of tenant 1 with 101 authentications, `"0"` to `"100"`. -/
def crowdedStore : Store :=
  { sources := [{ ID := 1, TenantID := 1 }],
    authentications := (List.range 101).map (fun i =>
      { ID := toString i, AuthType := "password", ResourceType := "Source", ResourceID := 1,
        TenantID := 1 }) }

/-- Collaborators of `SourceListAuthentications` for tenant 1. -/
def listHandlerEnv : ListHandlerEnv where
  getAuthenticationDao := fun _ => .ok tenantOneDao
  ToResponse := fun a => a.ID
  JSON := fun _ => none

/-- The RHC connection DAO of tenant 2. -/
def rhcDaoTenantTwo : RhcConnectionDaoImpl := { TenantID := 2 }

/-! # Theorems -/

/-! ## C1: a missing owner is reported before the authentications are read -/

theorem any_owner_absent {β : Type} (rows : List β) (p : β → Bool)
    (h : ¬ ∃ r ∈ rows, p r = true) : rows.any p = false := by
  rw [List.any_eq_false]
  intro r hr hp
  exact h ⟨r, hr, hp⟩

/-- C1: when the existence check runs and finds no owner row with the given id
in the tenant of the DAO, each of `ListForSource`, `ListForEndpoint`,
`ListForApplication` and `ListForApplicationAuthentication` returns the
`NotFound` error of its owner kind with a nil list and count 0, and the only
statement it issued is the existence check on the owner table: no statement
addresses the `authentications` table. -/
theorem listFor_absent_owner_notFound (env : Env κ) (add : authenticationDaoDbImpl) (cacher : κ)
    (db : Store) (id limit offset : Int) (filters : Filters)
    (hruns : ∀ t, env.scanError t = none) :
    ((¬ ∃ s ∈ db.sources, (s.ID == id && some s.TenantID == add.TenantID) = true) →
      let r := add.ListForSource env cacher db id limit offset filters
      r.err = some (.notFound "source") ∧ r.rows = none ∧ r.count = 0 ∧ r.panic = none ∧
        r.trace = [.scan .sources] ∧ ∀ c ∈ r.trace, c.table ≠ .authentications) ∧
    ((¬ ∃ s ∈ db.endpoints, (s.ID == id && some s.TenantID == add.TenantID) = true) →
      let r := add.ListForEndpoint env cacher db id limit offset filters
      r.err = some (.notFound "endpoint") ∧ r.rows = none ∧ r.count = 0 ∧ r.panic = none ∧
        r.trace = [.scan .endpoints] ∧ ∀ c ∈ r.trace, c.table ≠ .authentications) ∧
    ((¬ ∃ s ∈ db.applications, (s.ID == id && some s.TenantID == add.TenantID) = true) →
      let r := add.ListForApplication env cacher db id limit offset filters
      r.err = some (.notFound "application") ∧ r.rows = none ∧ r.count = 0 ∧ r.panic = none ∧
        r.trace = [.scan .applications] ∧ ∀ c ∈ r.trace, c.table ≠ .authentications) ∧
    ((¬ ∃ s ∈ db.applicationAuthentications,
        (s.ID == id && some s.TenantID == add.TenantID) = true) →
      let r := add.ListForApplicationAuthentication env cacher db id limit offset filters
      r.err = some (.notFound "application authentication") ∧ r.rows = none ∧ r.count = 0 ∧
        r.panic = none ∧ r.trace = [.scan .applicationAuthentications] ∧
        ∀ c ∈ r.trace, c.table ≠ .authentications) := by
  refine ⟨fun h => ?_, fun h => ?_, fun h => ?_, fun h => ?_⟩
  · simp [authenticationDaoDbImpl.ListForSource, hruns, any_owner_absent _ _ h,
      ListOutcome.fail, StoreCall.table]
  · simp [authenticationDaoDbImpl.ListForEndpoint, hruns, any_owner_absent _ _ h,
      ListOutcome.fail, StoreCall.table]
  · simp [authenticationDaoDbImpl.ListForApplication, hruns, any_owner_absent _ _ h,
      ListOutcome.fail, StoreCall.table]
  · simp [authenticationDaoDbImpl.ListForApplicationAuthentication, hruns,
      any_owner_absent _ _ h, ListOutcome.fail, StoreCall.table]

theorem listFor_absent_owner_notFound_witness :
    (tenantOneDao.ListForSource plainEnv none foreignOwnersStore 7 10 0 []).err
        = some (.notFound "source") ∧
    (tenantOneDao.ListForEndpoint plainEnv none foreignOwnersStore 7 10 0 []).err
        = some (.notFound "endpoint") ∧
    (tenantOneDao.ListForApplication plainEnv none foreignOwnersStore 7 10 0 []).err
        = some (.notFound "application") ∧
    (tenantOneDao.ListForApplicationAuthentication plainEnv none foreignOwnersStore 7 10 0 []).err
        = some (.notFound "application authentication") ∧
    (tenantOneDao.ListForSource plainEnv none foreignOwnersStore 7 10 0 []).trace
        = [.scan .sources] :=
  have h := listFor_absent_owner_notFound plainEnv tenantOneDao none foreignOwnersStore 7 10 0 []
    (fun _ => rfl)
  ⟨(h.1 (by decide)).1, (h.2.1 (by decide)).1, (h.2.2.1 (by decide)).1,
    (h.2.2.2 (by decide)).1, (h.1 (by decide)).2.2.2.2.1⟩

/-! ## C2: the switch of `AuthenticationsByResource` -/

/-- For the tags `Source`, `Endpoint` and `Application` the switch hands the
call to the listing function of that owner kind. -/
theorem byResource_dispatch (env : Env κ) (add : authenticationDaoDbImpl) (cacher : κ)
    (db : Store) (a : Authentication) :
    (a.ResourceType = "Source" →
      add.AuthenticationsByResource env cacher db a = ResourceOutcome.ofList
        (add.ListForSource env cacher db a.ResourceID env.DEFAULT_LIMIT env.DEFAULT_OFFSET [])) ∧
    (a.ResourceType = "Endpoint" →
      add.AuthenticationsByResource env cacher db a = ResourceOutcome.ofList
        (add.ListForEndpoint env cacher db a.ResourceID env.DEFAULT_LIMIT env.DEFAULT_OFFSET [])) ∧
    (a.ResourceType = "Application" →
      add.AuthenticationsByResource env cacher db a = ResourceOutcome.ofList
        (add.ListForApplication env cacher db a.ResourceID env.DEFAULT_LIMIT
          env.DEFAULT_OFFSET [])) := by
  refine ⟨fun h => ?_, fun h => ?_, fun h => ?_⟩ <;>
    simp [authenticationDaoDbImpl.AuthenticationsByResource, h]

/-- C2, at the failing input: for an authentication whose `ResourceType` is
`ApplicationAuthentication` and whose owner exists,
`ListForApplicationAuthentication` returns the owner's rows, yet
`AuthenticationsByResource` answers with the error of the default branch and
issues no statement. -/
theorem byResource_applicationAuthentication_unsupported :
    appAuthOwned.ResourceType = "ApplicationAuthentication" ∧
    (tenantOneDao.ListForApplicationAuthentication plainEnv none appAuthStore
        appAuthOwned.ResourceID plainEnv.DEFAULT_LIMIT plainEnv.DEFAULT_OFFSET []).rows
      = some [appAuthOwned] ∧
    (tenantOneDao.ListForApplicationAuthentication plainEnv none appAuthStore
        appAuthOwned.ResourceID plainEnv.DEFAULT_LIMIT plainEnv.DEFAULT_OFFSET []).err = none ∧
    (tenantOneDao.AuthenticationsByResource plainEnv none appAuthStore appAuthOwned).rows = none ∧
    (tenantOneDao.AuthenticationsByResource plainEnv none appAuthStore appAuthOwned).err
      = some (.message "unable to fetch authentications for ApplicationAuthentication") ∧
    (tenantOneDao.AuthenticationsByResource plainEnv none appAuthStore appAuthOwned).trace = [] := by
  decide

/-! ## C3: an unknown tag is an error -/

/-- C3: for an authentication whose `ResourceType` is none of `Source`,
`Endpoint`, `Application`, `ApplicationAuthentication`, in every store,
`AuthenticationsByResource` returns a nil list with the non-nil error of the
default branch, does not panic and issues no statement. -/
theorem byResource_unknown_tag_fails (env : Env κ) (add : authenticationDaoDbImpl) (cacher : κ)
    (db : Store) (a : Authentication)
    (hSource : a.ResourceType ≠ "Source") (hEndpoint : a.ResourceType ≠ "Endpoint")
    (hApplication : a.ResourceType ≠ "Application")
    (_hAppAuth : a.ResourceType ≠ "ApplicationAuthentication") :
    (add.AuthenticationsByResource env cacher db a).rows = none ∧
    (add.AuthenticationsByResource env cacher db a).err
      = some (.message ("unable to fetch authentications for " ++ a.ResourceType)) ∧
    (add.AuthenticationsByResource env cacher db a).err ≠ none ∧
    (add.AuthenticationsByResource env cacher db a).panic = none ∧
    (add.AuthenticationsByResource env cacher db a).trace = [] := by
  simp [authenticationDaoDbImpl.AuthenticationsByResource, hSource, hEndpoint, hApplication]

theorem byResource_unknown_tag_fails_witness :
    ((tenantOneDao.AuthenticationsByResource plainEnv none foreignOwnersStore
        { appAuthOwned with ResourceType := "source" }).rows = none ∧
      (tenantOneDao.AuthenticationsByResource plainEnv none foreignOwnersStore
        { appAuthOwned with ResourceType := "source" }).err
        = some (.message "unable to fetch authentications for source")) ∧
    ((tenantOneDao.AuthenticationsByResource plainEnv none foreignOwnersStore
        { appAuthOwned with ResourceType := "" }).rows = none ∧
      (tenantOneDao.AuthenticationsByResource plainEnv none foreignOwnersStore
        { appAuthOwned with ResourceType := "" }).err
        = some (.message "unable to fetch authentications for ")) :=
  have h1 := byResource_unknown_tag_fails plainEnv tenantOneDao none foreignOwnersStore
    { appAuthOwned with ResourceType := "source" } (by decide) (by decide) (by decide) (by decide)
  have h2 := byResource_unknown_tag_fails plainEnv tenantOneDao none foreignOwnersStore
    { appAuthOwned with ResourceType := "" } (by decide) (by decide) (by decide) (by decide)
  ⟨⟨h1.1, h1.2.1⟩, ⟨h2.1, h2.2.1⟩⟩

/-! ## C4: what a listing returns -/

theorem Query.satisfies_Where {α : Type} (q : Query α) (c : α → Bool) (a : α) :
    (q.Where c).satisfies a = (q.satisfies a && c a) := by
  simp [Query.satisfies, Query.Where, List.all_append]

theorem Query.selected_Where_of_mem {α : Type} (q : Query α) (c : α → Bool) (t : List α)
    (hc : c ∈ q.conds) : (q.Where c).selected t = q.selected t := by
  unfold Query.selected
  apply List.filter_congr
  intro a _
  rw [Query.satisfies_Where]
  cases hq : q.satisfies a
  · simp
  · simp only [Query.satisfies, List.all_eq_true] at hq
    simp [hq c hc]

theorem Query.mem_page {α : Type} (limit offset : Int) (rows : List α) (a : α)
    (h : a ∈ Query.page limit offset rows) : a ∈ rows := by
  unfold Query.page at h
  dsimp only at h
  split at h
  · split at h
    · exact List.mem_of_mem_drop (List.mem_of_mem_take h)
    · exact List.mem_of_mem_take h
  · split at h
    · exact List.mem_of_mem_drop h
    · exact h

theorem ownerQuery_satisfies (q : Query Authentication) (kind : String) (k : Int)
    (tenant : Option Int) (a : Authentication)
    (h : (ownerQuery q kind k tenant).satisfies a = true) :
    a.ResourceType = kind ∧ a.ResourceID = k ∧ some a.TenantID = tenant := by
  simp only [ownerQuery, Query.satisfies_Where, Bool.and_eq_true, resourceIdIs, resourceTypeIs,
    tenantIs, beq_iff_eq] at h
  exact ⟨h.1.2, h.1.1.2, h.2⟩

theorem mem_page_ownerQuery (q : Query Authentication) (kind : String) (k limit offset : Int)
    (tenant : Option Int) (t : Authentications) (a : Authentication)
    (h : a ∈ Query.page limit offset ((ownerQuery q kind k tenant).selected t)) :
    a.ResourceType = kind ∧ a.ResourceID = k ∧ some a.TenantID = tenant := by
  have hm := Query.mem_page _ _ _ _ h
  simp only [Query.selected, List.mem_filter] at hm
  exact ownerQuery_satisfies q kind k tenant a hm.2

/-- The statement `ListForSource` pages is the one it counted with. -/
theorem find_once (q : Query Authentication) (kind : String) (k limit offset : Int)
    (tenant : Option Int) (t : Authentications) :
    (((ownerQuery q kind k tenant).Limit limit).Offset offset).Find t
      = Query.page limit offset ((ownerQuery q kind k tenant).selected t) := rfl

/-- Adding the owner conditions a second time selects the same rows. -/
theorem find_twice (q : Query Authentication) (kind : String) (k limit offset : Int)
    (tenant : Option Int) (t : Authentications) :
    (((ownerQuery (ownerQuery q kind k tenant) kind k tenant).Limit limit).Offset offset).Find t
      = Query.page limit offset ((ownerQuery q kind k tenant).selected t) := by
  have h : (ownerQuery (ownerQuery q kind k tenant) kind k tenant).selected t
      = (ownerQuery q kind k tenant).selected t := by
    unfold ownerQuery
    rw [Query.selected_Where_of_mem _ _ _ (by simp [Query.Where]),
      Query.selected_Where_of_mem _ _ _ (by simp [Query.Where]),
      Query.selected_Where_of_mem _ _ _ (by simp [Query.Where])]
  show Query.page limit offset ((ownerQuery (ownerQuery q kind k tenant) kind k tenant).selected t)
    = _
  rw [h]

theorem ownerRestricted_of_page (env : Env κ) (add : authenticationDaoDbImpl) (db : Store)
    (kind : String) (k limit offset : Int) (filters : Filters) (r : ListOutcome κ)
    (h : ∀ rows, r.rows = some rows → ∃ q, env.applyFilters Query.Model filters = .ok q ∧
      r.count = (((ownerQuery q kind k add.TenantID).selected db.authentications).length : Int) ∧
      rows = Query.page limit offset
        ((ownerQuery q kind k add.TenantID).selected db.authentications)) :
    OwnerRestricted env add db kind k limit offset filters r := by
  intro rows hrows
  obtain ⟨q, hq, hcount, hpage⟩ := h rows hrows
  refine ⟨fun a ha => ?_, q, hq, hcount, hpage⟩
  rw [hpage] at ha
  exact mem_page_ownerQuery q kind k limit offset add.TenantID db.authentications a ha

theorem listForSource_restricted (env : Env κ) (add : authenticationDaoDbImpl) (cacher : κ)
    (db : Store) (k limit offset : Int) (filters : Filters) :
    OwnerRestricted env add db "Source" k limit offset filters
      (add.ListForSource env cacher db k limit offset filters) := by
  apply ownerRestricted_of_page
  intro rows
  unfold authenticationDaoDbImpl.ListForSource
  dsimp only
  repeat' split
  all_goals first
    | (intro h; simp [ListOutcome.fail, ListOutcome.makeslicePanic] at h; done)
    | skip
  rename_i q hq _ _ _ _ _
  intro h
  refine ⟨q, hq, rfl, ?_⟩
  simp only [ListOutcome.ok, Option.some.injEq] at h
  rw [← h]
  exact find_once q "Source" k limit offset add.TenantID db.authentications

theorem listForEndpoint_restricted (env : Env κ) (add : authenticationDaoDbImpl) (cacher : κ)
    (db : Store) (k limit offset : Int) (filters : Filters) :
    OwnerRestricted env add db "Endpoint" k limit offset filters
      (add.ListForEndpoint env cacher db k limit offset filters) := by
  apply ownerRestricted_of_page
  intro rows
  unfold authenticationDaoDbImpl.ListForEndpoint
  dsimp only
  repeat' split
  all_goals first
    | (intro h; simp [ListOutcome.fail, ListOutcome.makeslicePanic] at h; done)
    | skip
  rename_i q hq _ _ _ _ _
  intro h
  refine ⟨q, hq, rfl, ?_⟩
  simp only [ListOutcome.ok, Option.some.injEq] at h
  rw [← h]
  exact find_twice q "Endpoint" k limit offset add.TenantID db.authentications

theorem listForApplication_restricted (env : Env κ) (add : authenticationDaoDbImpl) (cacher : κ)
    (db : Store) (k limit offset : Int) (filters : Filters) :
    OwnerRestricted env add db "Application" k limit offset filters
      (add.ListForApplication env cacher db k limit offset filters) := by
  apply ownerRestricted_of_page
  intro rows
  unfold authenticationDaoDbImpl.ListForApplication
  dsimp only
  repeat' split
  all_goals first
    | (intro h; simp [ListOutcome.fail, ListOutcome.makeslicePanic] at h; done)
    | skip
  rename_i q hq _ _ _ _ _
  intro h
  refine ⟨q, hq, rfl, ?_⟩
  simp only [ListOutcome.ok, Option.some.injEq] at h
  rw [← h]
  exact find_twice q "Application" k limit offset add.TenantID db.authentications

theorem listForApplicationAuthentication_restricted (env : Env κ)
    (add : authenticationDaoDbImpl) (cacher : κ) (db : Store) (k limit offset : Int)
    (filters : Filters) :
    OwnerRestricted env add db "ApplicationAuthentication" k limit offset filters
      (add.ListForApplicationAuthentication env cacher db k limit offset filters) := by
  apply ownerRestricted_of_page
  intro rows
  unfold authenticationDaoDbImpl.ListForApplicationAuthentication
  dsimp only
  repeat' split
  all_goals first
    | (intro h; simp [ListOutcome.fail, ListOutcome.makeslicePanic] at h; done)
    | skip
  rename_i q hq _ _ _ _ _
  intro h
  refine ⟨q, hq, rfl, ?_⟩
  simp only [ListOutcome.ok, Option.some.injEq] at h
  rw [← h]
  exact find_twice q "ApplicationAuthentication" k limit offset add.TenantID db.authentications

/-- C4: for every tenant of the DAO, owner id, limit, offset, filter list and
store, the list each of `ListForSource`, `ListForEndpoint`,
`ListForApplication` and `ListForApplicationAuthentication` returns holds only
authentications whose resource type is that owner kind, whose resource id is
the owner id and whose tenant is the tenant of the DAO; the list is the
requested page of the rows selected by the filters and these three
conditions, and the returned count is the number of those same rows. -/
theorem listFor_rows_restricted_to_owner (env : Env κ) (add : authenticationDaoDbImpl)
    (cacher : κ) (db : Store) (k limit offset : Int) (filters : Filters) :
    OwnerRestricted env add db "Source" k limit offset filters
      (add.ListForSource env cacher db k limit offset filters) ∧
    OwnerRestricted env add db "Endpoint" k limit offset filters
      (add.ListForEndpoint env cacher db k limit offset filters) ∧
    OwnerRestricted env add db "Application" k limit offset filters
      (add.ListForApplication env cacher db k limit offset filters) ∧
    OwnerRestricted env add db "ApplicationAuthentication" k limit offset filters
      (add.ListForApplicationAuthentication env cacher db k limit offset filters) :=
  ⟨listForSource_restricted env add cacher db k limit offset filters,
   listForEndpoint_restricted env add cacher db k limit offset filters,
   listForApplication_restricted env add cacher db k limit offset filters,
   listForApplicationAuthentication_restricted env add cacher db k limit offset filters⟩

theorem listFor_rows_restricted_to_owner_witness :
    (tenantOneDao.ListForSource plainEnv none twoTenantStore 1 10 0 []).rows
      = some [ownAuthentication] ∧
    (tenantOneDao.ListForSource plainEnv none twoTenantStore 1 10 0 []).count = 1 ∧
    (∀ a ∈ [ownAuthentication],
      a.ResourceType = "Source" ∧ a.ResourceID = 1 ∧ some a.TenantID = tenantOneDao.TenantID) :=
  ⟨by decide, by decide,
    ((listFor_rows_restricted_to_owner plainEnv tenantOneDao none twoTenantStore 1 10 0 []).1
      [ownAuthentication] (by decide)).1⟩

/-! ## C5, C6: the cascade of `SourcePause` and `SourceResume` -/

theorem raiseApplicationEvents_all (env : HandlerEnv) (eventType : String) (headers : Headers) :
    ∀ (apps : List Application) (log : List RaisedEvent),
      (∀ b1 a b2, apps = b1 ++ a :: b2 →
        env.RaiseEvent (log ++ b1.map (applicationEvent eventType headers))
          (applicationEvent eventType headers a) = none) →
      raiseApplicationEvents env eventType headers log apps
        = (log ++ apps.map (applicationEvent eventType headers), none) := by
  intro apps
  induction apps with
  | nil => intro log _; simp [raiseApplicationEvents]
  | cons app rest ih =>
    intro log h
    have h0 := h [] app rest rfl
    simp only [List.map_nil, List.append_nil] at h0
    have hrest := ih (log ++ [applicationEvent eventType headers app]) (by
      intro b1 a b2 hsplit
      have := h (app :: b1) a b2 (by rw [hsplit]; rfl)
      simpa [List.append_assoc] using this)
    simp [raiseApplicationEvents, h0, hrest, List.append_assoc]

theorem raiseApplicationEvents_stop (env : HandlerEnv) (eventType : String) (headers : Headers)
    (ak : Application) (after : List Application) (e : Error) :
    ∀ (before : List Application) (log : List RaisedEvent),
      (∀ b1 a b2, before = b1 ++ a :: b2 →
        env.RaiseEvent (log ++ b1.map (applicationEvent eventType headers))
          (applicationEvent eventType headers a) = none) →
      env.RaiseEvent (log ++ before.map (applicationEvent eventType headers))
        (applicationEvent eventType headers ak) = some e →
      raiseApplicationEvents env eventType headers log (before ++ ak :: after)
        = (log ++ (before ++ [ak]).map (applicationEvent eventType headers), some e) := by
  intro before
  induction before with
  | nil =>
    intro log _ hfail
    simp only [List.map_nil, List.append_nil] at hfail
    simp [raiseApplicationEvents, hfail]
  | cons app rest ih =>
    intro log h hfail
    have h0 := h [] app rest rfl
    simp only [List.map_nil, List.append_nil] at h0
    have hrest := ih (log ++ [applicationEvent eventType headers app]) (by
      intro b1 a b2 hsplit
      have := h (app :: b1) a b2 (by rw [hsplit]; rfl)
      simpa [List.append_assoc] using this) (by simpa [List.append_assoc] using hfail)
    simp [raiseApplicationEvents, h0, hrest, List.append_assoc]

/-- C5: when the source id parses, the DAO is obtained, the update and the
reload succeed and every publish of the cascade succeeds, the events
`SourcePause` raises are exactly `Source.Pause` for the reloaded source
followed by one `Application.Pause` per application, in the order of the
reloaded list, each with the forwarded headers: `1 + n` events; the handler
then hands the 204 response to `c.JSON`.  `SourceResume` does the same with
`Source.Unpause` and `Application.Unpause`. -/
theorem pause_resume_raise_cascade (env : HandlerEnv) (c : Context) (sourceId : Int)
    (sourceDao : SourceDao) (source : Source)
    (hid : ParseInt (c.Param "source_id") = .ok sourceId)
    (hdao : env.getSourceDao c = .ok sourceDao)
    (hreload : sourceDao.GetByIdWithPreload sourceId ["Applications"] = .ok source) :
    (sourceDao.Pause sourceId = none →
      (∀ before ev after,
        cascadeEvents "Source.Pause" "Application.Pause" source (env.ForwadableHeaders c)
          = before ++ ev :: after → env.RaiseEvent before ev = none) →
      (SourcePause env c).events
          = cascadeEvents "Source.Pause" "Application.Pause" source (env.ForwadableHeaders c) ∧
        (SourcePause env c).events.length = 1 + source.Applications.length ∧
        (SourcePause env c).response = some { code := 204, body := none }) ∧
    (sourceDao.Resume sourceId = none →
      (∀ before ev after,
        cascadeEvents "Source.Unpause" "Application.Unpause" source (env.ForwadableHeaders c)
          = before ++ ev :: after → env.RaiseEvent before ev = none) →
      (SourceResume env c).events
          = cascadeEvents "Source.Unpause" "Application.Unpause" source (env.ForwadableHeaders c) ∧
        (SourceResume env c).events.length = 1 + source.Applications.length ∧
        (SourceResume env c).response = some { code := 204, body := none }) := by
  constructor
  · intro hupdate hsink
    have hsrc := hsink [] _ _ rfl
    have hloop := raiseApplicationEvents_all env "Application.Pause" (env.ForwadableHeaders c)
      source.Applications [sourceEvent "Source.Pause" source (env.ForwadableHeaders c)] (by
        intro b1 a b2 hsplit
        exact hsink _ _ (b2.map (applicationEvent "Application.Pause" (env.ForwadableHeaders c)))
          (by simp [cascadeEvents, hsplit]))
    simp [SourcePause, hid, hdao, hupdate, hreload, hsrc, hloop, cascadeEvents, StatusNoContent,
      Nat.add_comm]
  · intro hupdate hsink
    have hsrc := hsink [] _ _ rfl
    have hloop := raiseApplicationEvents_all env "Application.Unpause" (env.ForwadableHeaders c)
      source.Applications [sourceEvent "Source.Unpause" source (env.ForwadableHeaders c)] (by
        intro b1 a b2 hsplit
        exact hsink _ _ (b2.map (applicationEvent "Application.Unpause" (env.ForwadableHeaders c)))
          (by simp [cascadeEvents, hsplit]))
    simp [SourceResume, hid, hdao, hupdate, hreload, hsrc, hloop, cascadeEvents, StatusNoContent,
      Nat.add_comm]

theorem pause_resume_raise_cascade_witness :
    (SourcePause workingHandlerEnv sourceOneRequest).events
      = [sourceEvent "Source.Pause" sourceWithTwoApplications [("x-rh-identity", "abc")],
         applicationEvent "Application.Pause" [("x-rh-identity", "abc")]
           { ID := 10, SourceID := 1, TenantID := 1 },
         applicationEvent "Application.Pause" [("x-rh-identity", "abc")]
           { ID := 11, SourceID := 1, TenantID := 1 }] ∧
    (SourceResume workingHandlerEnv sourceOneRequest).events.length = 1 + 2 :=
  have h := pause_resume_raise_cascade workingHandlerEnv sourceOneRequest 1 workingSourceDao
    sourceWithTwoApplications rfl rfl rfl
  ⟨(h.1 rfl (fun _ _ _ _ => rfl)).1, (h.2 rfl (fun _ _ _ _ => rfl)).2.1⟩

theorem cascadeFailurePolicy_of_loop (env : HandlerEnv) (parentType childType : String)
    (source : Source) (headers : Headers) (r : HandlerOutcome)
    (hsrc : ∀ e, env.RaiseEvent [] (sourceEvent parentType source headers) = some e →
      r = { err := some e, response := none,
            events := [sourceEvent parentType source headers] })
    (hloop : env.RaiseEvent [] (sourceEvent parentType source headers) = none →
      ∀ events e, raiseApplicationEvents env childType headers
          [sourceEvent parentType source headers] source.Applications = (events, some e) →
        r = { err := some e, response := none, events := events }) :
    CascadeFailurePolicy env parentType childType source headers r := by
  constructor
  · intro e he
    rw [hsrc e he]
    exact ⟨rfl, rfl, rfl⟩
  · intro before ak after e hsplit hsource hbefore hfail
    have hstop := raiseApplicationEvents_stop env childType headers ak after e before
      [sourceEvent parentType source headers] (by simpa using hbefore) (by simpa using hfail)
    rw [← hsplit] at hstop
    rw [hloop hsource _ e hstop]
    exact ⟨rfl, by simp, rfl⟩

/-- C6: when the source id parses, the DAO is obtained and the update and the
reload succeed, `SourcePause` and `SourceResume` follow the failure policy of
the cascade: a failed publish of the source's event is returned at once, with
no application event attempted; a failed publish for application `ak` is
returned at once, the events attempted being the source's event and those of
`a1..ak`, none for the applications after `ak`; in both cases no response is
written. -/
theorem pause_resume_failure_policy (env : HandlerEnv) (c : Context) (sourceId : Int)
    (sourceDao : SourceDao) (source : Source)
    (hid : ParseInt (c.Param "source_id") = .ok sourceId)
    (hdao : env.getSourceDao c = .ok sourceDao)
    (hreload : sourceDao.GetByIdWithPreload sourceId ["Applications"] = .ok source) :
    (sourceDao.Pause sourceId = none →
      CascadeFailurePolicy env "Source.Pause" "Application.Pause" source
        (env.ForwadableHeaders c) (SourcePause env c)) ∧
    (sourceDao.Resume sourceId = none →
      CascadeFailurePolicy env "Source.Unpause" "Application.Unpause" source
        (env.ForwadableHeaders c) (SourceResume env c)) := by
  constructor
  · intro hupdate
    apply cascadeFailurePolicy_of_loop
    · intro e he
      simp [SourcePause, hid, hdao, hupdate, hreload, he]
    · intro hsource events e hloop
      simp [SourcePause, hid, hdao, hupdate, hreload, hsource, hloop]
  · intro hupdate
    apply cascadeFailurePolicy_of_loop
    · intro e he
      simp [SourceResume, hid, hdao, hupdate, hreload, he]
    · intro hsource events e hloop
      simp [SourceResume, hid, hdao, hupdate, hreload, hsource, hloop]

theorem pause_resume_failure_policy_witness :
    (SourcePause failingSinkEnv sourceOneRequest).err = some (.message "sink down") ∧
    (SourcePause failingSinkEnv sourceOneRequest).events
      = [sourceEvent "Source.Pause" sourceWithTwoApplications [("x-rh-identity", "abc")],
         applicationEvent "Application.Pause" [("x-rh-identity", "abc")]
           { ID := 10, SourceID := 1, TenantID := 1 },
         applicationEvent "Application.Pause" [("x-rh-identity", "abc")]
           { ID := 11, SourceID := 1, TenantID := 1 }] ∧
    (SourcePause failingSinkEnv sourceOneRequest).response = none :=
  have h := (pause_resume_failure_policy failingSinkEnv sourceOneRequest 1 workingSourceDao
    sourceWithTwoApplications rfl rfl rfl).1 rfl
  h.2 [{ ID := 10, SourceID := 1, TenantID := 1 }] { ID := 11, SourceID := 1, TenantID := 1 } []
    (.message "sink down") rfl (by decide)
    (by
      intro b1 a b2 hsplit
      have hlen := congrArg List.length hsplit
      simp only [List.length_cons, List.length_nil, List.length_append] at hlen
      have hb1 : b1 = [] := List.eq_nil_of_length_eq_zero (by omega)
      subst hb1
      rfl)
    (by decide)

/-! ## C7: errors of the DAO in `SourcePause` and `SourceResume` -/

/-- C7 as stated fails: a `NotFound` error returned by `sourceDao.Pause` or
`sourceDao.Resume` reaches the caller wrapped as `BadRequest`. -/
theorem pause_resume_notFound_wrapped :
    (SourcePause missingSourceEnv sourceOneRequest).err
      = some (.badRequest (.notFound "source")) ∧
    (SourcePause missingSourceEnv sourceOneRequest).err ≠ some (.notFound "source") ∧
    (SourceResume missingSourceEnv sourceOneRequest).err
      = some (.badRequest (.notFound "source")) ∧
    (SourceResume missingSourceEnv sourceOneRequest).err ≠ some (.notFound "source") := by
  decide

/-- C7, amended: on a source id that parses, with the DAO obtained, every error
`e` of `sourceDao.Pause` (`sourceDao.Resume`) reaches the caller as
`BadRequest` wrapping `e`, whatever `e` is; when the update succeeds, every
error of the reload `GetByIdWithPreload` (such as `NotFound` of the source)
reaches the caller as it is; in both cases no event is raised and no response
is written. -/
theorem pause_resume_dao_errors (env : HandlerEnv) (c : Context) (sourceId : Int)
    (sourceDao : SourceDao)
    (hid : ParseInt (c.Param "source_id") = .ok sourceId)
    (hdao : env.getSourceDao c = .ok sourceDao) :
    (∀ e, sourceDao.Pause sourceId = some e →
      SourcePause env c = { err := some (.badRequest e), response := none, events := [] }) ∧
    (∀ e, sourceDao.Pause sourceId = none →
      sourceDao.GetByIdWithPreload sourceId ["Applications"] = .error e →
      SourcePause env c = { err := some e, response := none, events := [] }) ∧
    (∀ e, sourceDao.Resume sourceId = some e →
      SourceResume env c = { err := some (.badRequest e), response := none, events := [] }) ∧
    (∀ e, sourceDao.Resume sourceId = none →
      sourceDao.GetByIdWithPreload sourceId ["Applications"] = .error e →
      SourceResume env c = { err := some e, response := none, events := [] }) := by
  refine ⟨fun e h => ?_, fun e h hreload => ?_, fun e h => ?_, fun e h hreload => ?_⟩
  · simp [SourcePause, hid, hdao, h]
  · simp [SourcePause, hid, hdao, h, hreload]
  · simp [SourceResume, hid, hdao, h]
  · simp [SourceResume, hid, hdao, h, hreload]

theorem pause_resume_dao_errors_witness :
    SourcePause missingOnReloadEnv sourceOneRequest
      = { err := some (.notFound "source"), response := none, events := [] } ∧
    SourceResume missingOnReloadEnv sourceOneRequest
      = { err := some (.notFound "source"), response := none, events := [] } :=
  have h := pause_resume_dao_errors missingOnReloadEnv sourceOneRequest 1
    { workingSourceDao with GetByIdWithPreload := fun _ _ => .error (.notFound "source") }
    rfl rfl
  ⟨h.2.1 (.notFound "source") rfl rfl, h.2.2.2 (.notFound "source") rfl rfl⟩

/-! ## C8, C9: the enrichment loops -/

theorem enrichLoopVariable_stops (env : Env κ) (cacher : κ) :
    ∀ rows : Authentications,
      (∃ a ∈ rows, (env.setMarketplaceTokenAuthExtraField cacher a).2 ≠ none) →
      ∃ before a after e, rows = before ++ a :: after ∧
        (∀ b ∈ before, (env.setMarketplaceTokenAuthExtraField cacher b).2 = none) ∧
        (env.setMarketplaceTokenAuthExtraField cacher a).2 = some e ∧
        enrichLoopVariable env cacher rows = some e := by
  intro rows
  induction rows with
  | nil => intro h; simp at h
  | cons auth rest ih =>
    intro h
    cases hhook : env.setMarketplaceTokenAuthExtraField cacher auth with
    | mk enriched result =>
      cases result with
      | some e =>
        exact ⟨[], auth, rest, e, rfl, by simp, by simp [hhook],
          by simp [enrichLoopVariable, hhook]⟩
      | none =>
        have hrest : ∃ a ∈ rest, (env.setMarketplaceTokenAuthExtraField cacher a).2 ≠ none := by
          obtain ⟨a, ha, hne⟩ := h
          rcases List.mem_cons.mp ha with rfl | hmem
          · simp [hhook] at hne
          · exact ⟨a, hmem, hne⟩
        obtain ⟨before, a, after, e, hsplit, hbefore, ha, hloop⟩ := ih hrest
        refine ⟨auth :: before, a, after, e, by simp [hsplit], ?_, ha, ?_⟩
        · intro b hb
          rcases List.mem_cons.mp hb with rfl | hmem
          · simp [hhook]
          · exact hbefore b hmem
        · simp [enrichLoopVariable, hhook, hloop]

theorem enrichElements_stops (env : Env κ) (cacher : κ) :
    ∀ rows : Authentications,
      (∃ a ∈ rows, (env.setMarketplaceTokenAuthExtraField cacher a).2 ≠ none) →
      ∃ before a after e, rows = before ++ a :: after ∧
        (∀ b ∈ before, (env.setMarketplaceTokenAuthExtraField cacher b).2 = none) ∧
        (env.setMarketplaceTokenAuthExtraField cacher a).2 = some e ∧
        enrichElements env cacher rows = .error e := by
  intro rows
  induction rows with
  | nil => intro h; simp at h
  | cons auth rest ih =>
    intro h
    cases hhook : env.setMarketplaceTokenAuthExtraField cacher auth with
    | mk enriched result =>
      cases result with
      | some e =>
        exact ⟨[], auth, rest, e, rfl, by simp, by simp [hhook],
          by simp [enrichElements, hhook]⟩
      | none =>
        have hrest : ∃ a ∈ rest, (env.setMarketplaceTokenAuthExtraField cacher a).2 ≠ none := by
          obtain ⟨a, ha, hne⟩ := h
          rcases List.mem_cons.mp ha with rfl | hmem
          · simp [hhook] at hne
          · exact ⟨a, hmem, hne⟩
        obtain ⟨before, a, after, e, hsplit, hbefore, ha, hloop⟩ := ih hrest
        refine ⟨auth :: before, a, after, e, by simp [hsplit], ?_, ha, ?_⟩
        · intro b hb
          rcases List.mem_cons.mp hb with rfl | hmem
          · simp [hhook]
          · exact hbefore b hmem
        · simp [enrichElements, hhook, hloop]

/-- Once `List` has fetched its rows, its outcome is decided by the loop over
the slice elements. -/
theorem list_after_fetch (env : Env κ) (add : authenticationDaoDbImpl) (cacher : κ) (db : Store)
    (limit offset : Int) (filters : Filters) (q : Query Authentication)
    (hq : env.applyFilters Query.Model filters = .ok q) (hlimit : 0 ≤ limit)
    (hcap : sizeofAuthentication env * limit ≤ maxAlloc)
    (hfind : env.findError .authentications = none) :
    add.List env cacher db limit offset filters
      = match enrichElements env (env.GetMarketplaceTokenCacher add.TenantID)
          (Query.page limit offset ((q.Where (tenantIs add.TenantID)).selected
            db.authentications)) with
        | .error err => ListOutcome.fail err [.count .authentications, .find .authentications]
            (env.GetMarketplaceTokenCacher add.TenantID)
        | .ok rows => ListOutcome.ok rows (q.Count db.authentications)
            [.count .authentications, .find .authentications]
            (env.GetMarketplaceTokenCacher add.TenantID) := by
  have hguard : ¬ makesliceOutOfRange env limit :=
    not_or.mpr ⟨not_lt.mpr hlimit, not_lt.mpr hcap⟩
  unfold authenticationDaoDbImpl.List
  simp only [hq, hfind, hguard, if_false]
  rfl

/-- Once `ListForSource` has fetched its rows, its outcome is decided by the
loop over the copies: on success the rows are the fetched ones, as fetched. -/
theorem listForSource_after_fetch (env : Env κ) (add : authenticationDaoDbImpl) (cacher : κ)
    (db : Store) (k limit offset : Int) (filters : Filters) (q : Query Authentication)
    (hscan : env.scanError .sources = none)
    (hexists : ∃ s ∈ db.sources, (s.ID == k && some s.TenantID == add.TenantID) = true)
    (hq : env.applyFilters Query.Model filters = .ok q) (hlimit : 0 ≤ limit)
    (hcap : sizeofAuthentication env * limit ≤ maxAlloc)
    (hfind : env.findError .authentications = none) :
    add.ListForSource env cacher db k limit offset filters
      = match enrichLoopVariable env cacher (Query.page limit offset
          ((ownerQuery q "Source" k add.TenantID).selected db.authentications)) with
        | some err => ListOutcome.fail err
            [.scan .sources, .count .authentications, .find .authentications] cacher
        | none => ListOutcome.ok (Query.page limit offset
            ((ownerQuery q "Source" k add.TenantID).selected db.authentications))
            ((ownerQuery q "Source" k add.TenantID).Count db.authentications)
            [.scan .sources, .count .authentications, .find .authentications] cacher := by
  have hany : (db.sources.any fun s => s.ID == k && some s.TenantID == add.TenantID) = true :=
    List.any_eq_true.mpr hexists
  have hguard : ¬ makesliceOutOfRange env limit :=
    not_or.mpr ⟨not_lt.mpr hlimit, not_lt.mpr hcap⟩
  unfold authenticationDaoDbImpl.ListForSource
  simp only [hscan, hany, hq, hfind, hguard, if_false, Bool.not_true,
    Bool.false_eq_true]
  rfl


theorem ownerQuery_selected_twice (q : Query Authentication) (kind : String) (k : Int)
    (tenant : Option Int) (t : Authentications) :
    (ownerQuery (ownerQuery q kind k tenant) kind k tenant).selected t
      = (ownerQuery q kind k tenant).selected t := by
  unfold ownerQuery
  rw [Query.selected_Where_of_mem _ _ _ (by simp [Query.Where]),
    Query.selected_Where_of_mem _ _ _ (by simp [Query.Where]),
    Query.selected_Where_of_mem _ _ _ (by simp [Query.Where])]

/-- As `listForSource_after_fetch`, for `ListForEndpoint`. -/
theorem listForEndpoint_after_fetch (env : Env κ) (add : authenticationDaoDbImpl) (cacher : κ)
    (db : Store) (k limit offset : Int) (filters : Filters) (q : Query Authentication)
    (hscan : env.scanError .endpoints = none)
    (hexists : ∃ s ∈ db.endpoints, (s.ID == k && some s.TenantID == add.TenantID) = true)
    (hq : env.applyFilters Query.Model filters = .ok q) (hlimit : 0 ≤ limit)
    (hcap : sizeofAuthentication env * limit ≤ maxAlloc)
    (hfind : env.findError .authentications = none) :
    add.ListForEndpoint env cacher db k limit offset filters
      = match enrichLoopVariable env cacher (Query.page limit offset
          ((ownerQuery q "Endpoint" k add.TenantID).selected db.authentications)) with
        | some err => ListOutcome.fail err
            [.scan .endpoints, .count .authentications, .find .authentications] cacher
        | none => ListOutcome.ok (Query.page limit offset
            ((ownerQuery q "Endpoint" k add.TenantID).selected db.authentications))
            ((ownerQuery q "Endpoint" k add.TenantID).Count db.authentications)
            [.scan .endpoints, .count .authentications, .find .authentications] cacher := by
  have hany : (db.endpoints.any fun s => s.ID == k && some s.TenantID == add.TenantID) = true :=
    List.any_eq_true.mpr hexists
  have hguard : ¬ makesliceOutOfRange env limit :=
    not_or.mpr ⟨not_lt.mpr hlimit, not_lt.mpr hcap⟩
  unfold authenticationDaoDbImpl.ListForEndpoint
  simp only [hscan, hany, hq, hfind, hguard, if_false, Bool.not_true,
    Bool.false_eq_true]
  rw [← ownerQuery_selected_twice q "Endpoint" k add.TenantID db.authentications]
  rfl

/-- As `listForSource_after_fetch`, for `ListForApplication`. -/
theorem listForApplication_after_fetch (env : Env κ) (add : authenticationDaoDbImpl)
    (cacher : κ) (db : Store) (k limit offset : Int) (filters : Filters)
    (q : Query Authentication)
    (hscan : env.scanError .applications = none)
    (hexists : ∃ s ∈ db.applications, (s.ID == k && some s.TenantID == add.TenantID) = true)
    (hq : env.applyFilters Query.Model filters = .ok q) (hlimit : 0 ≤ limit)
    (hcap : sizeofAuthentication env * limit ≤ maxAlloc)
    (hfind : env.findError .authentications = none) :
    add.ListForApplication env cacher db k limit offset filters
      = match enrichLoopVariable env cacher (Query.page limit offset
          ((ownerQuery q "Application" k add.TenantID).selected db.authentications)) with
        | some err => ListOutcome.fail err
            [.scan .applications, .count .authentications, .find .authentications] cacher
        | none => ListOutcome.ok (Query.page limit offset
            ((ownerQuery q "Application" k add.TenantID).selected db.authentications))
            ((ownerQuery q "Application" k add.TenantID).Count db.authentications)
            [.scan .applications, .count .authentications, .find .authentications] cacher := by
  have hany :
      (db.applications.any fun s => s.ID == k && some s.TenantID == add.TenantID) = true :=
    List.any_eq_true.mpr hexists
  have hguard : ¬ makesliceOutOfRange env limit :=
    not_or.mpr ⟨not_lt.mpr hlimit, not_lt.mpr hcap⟩
  unfold authenticationDaoDbImpl.ListForApplication
  simp only [hscan, hany, hq, hfind, hguard, if_false, Bool.not_true,
    Bool.false_eq_true]
  rw [← ownerQuery_selected_twice q "Application" k add.TenantID db.authentications]
  rfl

/-- As `listForSource_after_fetch`, for `ListForApplicationAuthentication`. -/
theorem listForApplicationAuthentication_after_fetch (env : Env κ)
    (add : authenticationDaoDbImpl) (cacher : κ) (db : Store) (k limit offset : Int)
    (filters : Filters) (q : Query Authentication)
    (hscan : env.scanError .applicationAuthentications = none)
    (hexists : ∃ s ∈ db.applicationAuthentications,
      (s.ID == k && some s.TenantID == add.TenantID) = true)
    (hq : env.applyFilters Query.Model filters = .ok q) (hlimit : 0 ≤ limit)
    (hcap : sizeofAuthentication env * limit ≤ maxAlloc)
    (hfind : env.findError .authentications = none) :
    add.ListForApplicationAuthentication env cacher db k limit offset filters
      = match enrichLoopVariable env cacher (Query.page limit offset
          ((ownerQuery q "ApplicationAuthentication" k add.TenantID).selected
            db.authentications)) with
        | some err => ListOutcome.fail err
            [.scan .applicationAuthentications, .count .authentications,
             .find .authentications] cacher
        | none => ListOutcome.ok (Query.page limit offset
            ((ownerQuery q "ApplicationAuthentication" k add.TenantID).selected
              db.authentications))
            ((ownerQuery q "ApplicationAuthentication" k add.TenantID).Count db.authentications)
            [.scan .applicationAuthentications, .count .authentications,
             .find .authentications] cacher := by
  have hany : (db.applicationAuthentications.any
      fun s => s.ID == k && some s.TenantID == add.TenantID) = true :=
    List.any_eq_true.mpr hexists
  have hguard : ¬ makesliceOutOfRange env limit :=
    not_or.mpr ⟨not_lt.mpr hlimit, not_lt.mpr hcap⟩
  unfold authenticationDaoDbImpl.ListForApplicationAuthentication
  simp only [hscan, hany, hq, hfind, hguard, if_false, Bool.not_true,
    Bool.false_eq_true]
  rw [← ownerQuery_selected_twice q "ApplicationAuthentication" k add.TenantID
    db.authentications]
  rfl

theorem aborts_of_loopVariable (env : Env κ) (cacher : κ) (fetched : Authentications)
    (count : Int) (trace : Trace) (r : ListOutcome κ)
    (h : r = match enrichLoopVariable env cacher fetched with
      | some err => ListOutcome.fail err trace cacher
      | none => ListOutcome.ok fetched count trace cacher) :
    AbortsOnFailedEnrichment env cacher fetched r := by
  intro hfail
  obtain ⟨before, a, after, e, hsplit, hbefore, ha, hloop⟩ :=
    enrichLoopVariable_stops env cacher fetched hfail
  rw [hloop] at h
  subst h
  exact ⟨rfl, rfl, rfl, before, a, after, e, hsplit, hbefore, ha, rfl⟩

theorem aborts_of_elements (env : Env κ) (cacher : κ) (fetched : Authentications)
    (count : Int) (trace : Trace) (r : ListOutcome κ)
    (h : r = match enrichElements env cacher fetched with
      | .error err => ListOutcome.fail err trace cacher
      | .ok rows => ListOutcome.ok rows count trace cacher) :
    AbortsOnFailedEnrichment env cacher fetched r := by
  intro hfail
  obtain ⟨before, a, after, e, hsplit, hbefore, ha, hloop⟩ :=
    enrichElements_stops env cacher fetched hfail
  rw [hloop] at h
  subst h
  exact ⟨rfl, rfl, rfl, before, a, after, e, hsplit, hbefore, ha, rfl⟩

/-- On a limit that is negative or asks for a slice larger than `maxAlloc`,
`List` panics in `make` once it has counted: it returns nothing and runs no
`Find`. -/
theorem list_panics_on_bad_limit (env : Env κ) (add : authenticationDaoDbImpl) (cacher : κ)
    (db : Store) (limit offset : Int) (filters : Filters) (q : Query Authentication)
    (hq : env.applyFilters Query.Model filters = .ok q)
    (hbad : makesliceOutOfRange env limit) :
    add.List env cacher db limit offset filters
      = ListOutcome.makeslicePanic [.count .authentications] cacher := by
  unfold authenticationDaoDbImpl.List
  simp only [hq, hbad, if_true]

/-- C8, at the failing input: every owner of `marketplaceStore` exists and the
hook succeeds on every row and fills `Extra`.  `List` returns the rows with
`Extra` filled; each of `ListForSource`, `ListForEndpoint`,
`ListForApplication` and `ListForApplicationAuthentication` returns its row
with `Extra` still empty, the hook having worked on a copy. -/
theorem listFor_rows_not_enriched :
    (plainEnv.setMarketplaceTokenAuthExtraField (some 1) (tokenOf "Source"))
      = ({ tokenOf "Source" with Extra := some "marketplace" }, none) ∧
    (tenantOneDao.List plainEnv none marketplaceStore 10 0 []).rows
      = some (marketplaceStore.authentications.map
          (fun a => { a with Extra := some "marketplace" })) ∧
    (tenantOneDao.ListForSource plainEnv (some 1) marketplaceStore 1 10 0 []).rows
      = some [{ tokenOf "Source" with Extra := none }] ∧
    (tenantOneDao.ListForEndpoint plainEnv (some 1) marketplaceStore 1 10 0 []).rows
      = some [{ tokenOf "Endpoint" with Extra := none }] ∧
    (tenantOneDao.ListForApplication plainEnv (some 1) marketplaceStore 1 10 0 []).rows
      = some [{ tokenOf "Application" with Extra := none }] ∧
    (tenantOneDao.ListForApplicationAuthentication plainEnv (some 1) marketplaceStore 1 10 0
        []).rows
      = some [{ tokenOf "ApplicationAuthentication" with Extra := none }] := by
  decide

/-- C9: once the rows are fetched (the filters apply, the limit is not
negative and a slice of that capacity is not larger than `maxAlloc`, so that
`make` does not panic, the `Find` runs and, for
the `ListFor...` functions, the existence check runs and finds the owner), a
failure of the hook on any fetched row
makes `List` and each of `ListForSource`, `ListForEndpoint`,
`ListForApplication`, `ListForApplicationAuthentication` return a nil list,
count 0 and the error of the first row the hook failed on. -/
theorem enrichment_failure_aborts_listing (env : Env κ) (add : authenticationDaoDbImpl)
    (cacher : κ) (db : Store) (k limit offset : Int) (filters : Filters)
    (q : Query Authentication)
    (hq : env.applyFilters Query.Model filters = .ok q) (hlimit : 0 ≤ limit)
    (hcap : sizeofAuthentication env * limit ≤ maxAlloc)
    (hfind : env.findError .authentications = none) :
    AbortsOnFailedEnrichment env (env.GetMarketplaceTokenCacher add.TenantID)
      (Query.page limit offset ((q.Where (tenantIs add.TenantID)).selected db.authentications))
      (add.List env cacher db limit offset filters) ∧
    (env.scanError .sources = none →
      (∃ s ∈ db.sources, (s.ID == k && some s.TenantID == add.TenantID) = true) →
      AbortsOnFailedEnrichment env cacher
        (Query.page limit offset
          ((ownerQuery q "Source" k add.TenantID).selected db.authentications))
        (add.ListForSource env cacher db k limit offset filters)) ∧
    (env.scanError .endpoints = none →
      (∃ s ∈ db.endpoints, (s.ID == k && some s.TenantID == add.TenantID) = true) →
      AbortsOnFailedEnrichment env cacher
        (Query.page limit offset
          ((ownerQuery q "Endpoint" k add.TenantID).selected db.authentications))
        (add.ListForEndpoint env cacher db k limit offset filters)) ∧
    (env.scanError .applications = none →
      (∃ s ∈ db.applications, (s.ID == k && some s.TenantID == add.TenantID) = true) →
      AbortsOnFailedEnrichment env cacher
        (Query.page limit offset
          ((ownerQuery q "Application" k add.TenantID).selected db.authentications))
        (add.ListForApplication env cacher db k limit offset filters)) ∧
    (env.scanError .applicationAuthentications = none →
      (∃ s ∈ db.applicationAuthentications,
        (s.ID == k && some s.TenantID == add.TenantID) = true) →
      AbortsOnFailedEnrichment env cacher
        (Query.page limit offset
          ((ownerQuery q "ApplicationAuthentication" k add.TenantID).selected
            db.authentications))
        (add.ListForApplicationAuthentication env cacher db k limit offset filters)) := by
  refine ⟨?_, fun hscan hexists => ?_, fun hscan hexists => ?_, fun hscan hexists => ?_,
    fun hscan hexists => ?_⟩
  · exact aborts_of_elements env _ _ _ _ _
      (list_after_fetch env add cacher db limit offset filters q hq hlimit hcap hfind)
  · exact aborts_of_loopVariable env _ _ _ _ _
      (listForSource_after_fetch env add cacher db k limit offset filters q hscan hexists hq
        hlimit hcap hfind)
  · exact aborts_of_loopVariable env _ _ _ _ _
      (listForEndpoint_after_fetch env add cacher db k limit offset filters q hscan hexists hq
        hlimit hcap hfind)
  · exact aborts_of_loopVariable env _ _ _ _ _
      (listForApplication_after_fetch env add cacher db k limit offset filters q hscan hexists hq
        hlimit hcap hfind)
  · exact aborts_of_loopVariable env _ _ _ _ _
      (listForApplicationAuthentication_after_fetch env add cacher db k limit offset filters q
        hscan hexists hq hlimit hcap hfind)

theorem enrichment_failure_aborts_listing_witness :
    ((tenantOneDao.List unreachableMarketplaceEnv none mixedStore 10 0 []).rows = none ∧
      (tenantOneDao.List unreachableMarketplaceEnv none mixedStore 10 0 []).count = 0) ∧
    ((tenantOneDao.ListForSource unreachableMarketplaceEnv none mixedStore 1 10 0 []).rows = none ∧
      (tenantOneDao.ListForSource unreachableMarketplaceEnv none mixedStore 1 10 0 []).count = 0 ∧
      (tenantOneDao.ListForSource unreachableMarketplaceEnv none mixedStore 1 10 0 []).err
        = some (.message "the marketplace host is not found")) :=
  have h := enrichment_failure_aborts_listing unreachableMarketplaceEnv tenantOneDao none
    mixedStore 1 10 0 [] Query.Model rfl (by decide) (by decide) rfl
  have hList := h.1 (by decide)
  have hSource := h.2.1 rfl (by decide) (by decide)
  ⟨⟨hList.1, hList.2.1⟩, ⟨hSource.1, hSource.2.1, by decide⟩⟩

/-! ## C10: the existence check of `RhcConnectionDaoImpl.Create` -/

/-- When the existence check runs and no source has the id of `Sources[0]`,
`Create` returns `NotFound` of the source and leaves the database as it was. -/
theorem create_absent_source_notFound (drv : Driver) (s : RhcConnectionDaoImpl) (d : Database)
    (rhcConnection : RhcConnection) (source0 : Source) (others : List Source)
    (hsources : rhcConnection.Sources = source0 :: others)
    (hscan : drv.scanError .sources = none)
    (habsent : ¬ ∃ src ∈ d.tables.sources, (src.ID == source0.ID) = true) :
    s.Create drv d rhcConnection
      = { rhcConnection := none, err := some (.notFound "source"), panic := none, db := d,
          trace := [.scan .sources] } := by
  unfold RhcConnectionDaoImpl.Create
  rw [hsources]
  simp [hscan, any_owner_absent _ _ habsent]

/-- C10, at the failing input: the only source with id 1 belongs to tenant 2,
yet `Create` under tenant 1 returns no error and writes the connection row and
a join row that ties source 1 to it under tenant 1. -/
theorem create_links_source_of_other_tenant :
    (∀ src ∈ tenantTwoSourceDb.tables.sources,
      src.ID = 1 → src.TenantID ≠ rhcDaoTenantOne.TenantID) ∧
    (rhcDaoTenantOne.Create healthyDriver tenantTwoSourceDb newConnection).err = none ∧
    (rhcDaoTenantOne.Create healthyDriver tenantTwoSourceDb newConnection).db.tables.rhcConnections
      = [{ ID := 1, RhcId := "rhc-1", Extra := "{}" }] ∧
    (rhcDaoTenantOne.Create healthyDriver tenantTwoSourceDb
        newConnection).db.tables.sourceRhcConnections
      = [{ SourceId := 1, RhcConnectionId := 1, TenantId := 1 }] := by
  decide


/-! ## C11, C12: the transaction of `RhcConnectionDaoImpl.Create` -/

theorem firstByID_single (row : RhcConnection) : firstByID [row] = some row := rfl

theorem filter_single_of_length_le_one {β : Type} (p : β → Bool) (l : List β) (x : β)
    (hle : (l.filter p).length ≤ 1) (hx : x ∈ l) (hp : p x = true) : l.filter p = [x] := by
  have hmem : x ∈ l.filter p := List.mem_filter.mpr ⟨hx, hp⟩
  match hf : l.filter p, hmem, hle with
  | [y], hmem, _ => simp at hmem; simp [hmem]
  | [], hmem, _ => simp at hmem
  | _ :: _ :: _, _, hle => simp at hle

/-- The statement of `FirstOrCreate` on a struct without id looks at the rows
with the `rhc_id` only. -/
theorem candidates_of_zero_id (rows : List RhcConnection) (c : RhcConnection) (hid : c.ID = 0) :
    rows.filter (fun r => r.RhcId == c.RhcId && (c.ID == 0 || r.ID == c.ID))
      = rows.filter (fun r => r.RhcId == c.RhcId) := by
  apply List.filter_congr
  intro r _
  simp [hid]

/-- `FirstOrCreate` on a database that holds exactly one row with the `rhc_id`:
the row is read into the struct and nothing is written. -/
theorem firstOrCreate_found (drv : Driver) (d : Database) (c row : RhcConnection)
    (hid : c.ID = 0) (hfirst : drv.firstError .rhcConnections = none)
    (hrow : d.tables.rhcConnections.filter (fun r => r.RhcId == c.RhcId) = [row]) :
    firstOrCreate drv d c
      = { rhcConnection := { row with Sources := c.Sources }, err := none, db := d,
          trace := [.first .rhcConnections] } := by
  unfold firstOrCreate
  simp only [hfirst, candidates_of_zero_id _ c hid, hrow, firstByID_single]


/-- `Create` once the existence check has passed and `FirstOrCreate` has
succeeded, when the join row can be inserted. -/
theorem create_linked (drv : Driver) (s : RhcConnectionDaoImpl) (d : Database)
    (c : RhcConnection) (source0 : Source) (others : List Source)
    (hsources : c.Sources = source0 :: others)
    (hscan : drv.scanError .sources = none)
    (hexists : ∃ src ∈ d.tables.sources, (src.ID == source0.ID) = true)
    (hfound : (firstOrCreate drv d c).err = none)
    (hinsert : drv.insertError .sourceRhcConnections = none)
    (hfree : sourceRhcConnectionViolation (firstOrCreate drv d c).db.tables
      { SourceId := source0.ID, RhcConnectionId := (firstOrCreate drv d c).rhcConnection.ID,
        TenantId := s.TenantID } = none) :
    (s.Create drv d c).rhcConnection = some (firstOrCreate drv d c).rhcConnection ∧
    (s.Create drv d c).err = none ∧
    (s.Create drv d c).db =
      { (firstOrCreate drv d c).db with
        tables := { (firstOrCreate drv d c).db.tables with
          sourceRhcConnections := (firstOrCreate drv d c).db.tables.sourceRhcConnections ++
            [{ SourceId := source0.ID,
               RhcConnectionId := (firstOrCreate drv d c).rhcConnection.ID,
               TenantId := s.TenantID }] } } := by
  have hany : (d.tables.sources.any fun src => src.ID == source0.ID) = true :=
    List.any_eq_true.mpr hexists
  unfold RhcConnectionDaoImpl.Create
  rw [hsources]
  simp [hscan, hany, hfound, hinsert, hfree]

/-- `Create` once the existence check has passed and `FirstOrCreate` has
succeeded, when the insert of the join row fails with `e`: the error is
wrapped and the tables are the ones the call started from. -/
theorem create_not_linked (drv : Driver) (s : RhcConnectionDaoImpl) (d : Database)
    (c : RhcConnection) (source0 : Source) (others : List Source) (e : Error)
    (hsources : c.Sources = source0 :: others)
    (hscan : drv.scanError .sources = none)
    (hexists : ∃ src ∈ d.tables.sources, (src.ID == source0.ID) = true)
    (hfound : (firstOrCreate drv d c).err = none)
    (hfails : drv.insertError .sourceRhcConnections = some e ∨
      (drv.insertError .sourceRhcConnections = none ∧
        sourceRhcConnectionViolation (firstOrCreate drv d c).db.tables
          { SourceId := source0.ID, RhcConnectionId := (firstOrCreate drv d c).rhcConnection.ID,
            TenantId := s.TenantID } = some e)) :
    (s.Create drv d c).rhcConnection = some (firstOrCreate drv d c).rhcConnection ∧
    (s.Create drv d c).err = some (.wrap "cannot link red hat connection to source" e) ∧
    (s.Create drv d c).db = { (firstOrCreate drv d c).db with tables := d.tables } := by
  have hany : (d.tables.sources.any fun src => src.ID == source0.ID) = true :=
    List.any_eq_true.mpr hexists
  unfold RhcConnectionDaoImpl.Create
  rw [hsources]
  rcases hfails with h | ⟨h1, h2⟩
  · simp [hscan, hany, hfound, h]
  · simp [hscan, hany, hfound, h1, h2]


/-- `FirstOrCreate` on a database without a row of the `rhc_id`: the struct is
inserted under the next id of the sequence, unless a constraint is violated. -/
theorem firstOrCreate_created (drv : Driver) (d : Database) (c : RhcConnection)
    (hid : c.ID = 0) (hfirst : drv.firstError .rhcConnections = none)
    (hinsert : drv.insertError .rhcConnections = none)
    (hnone : d.tables.rhcConnections.filter (fun r => r.RhcId == c.RhcId) = []) :
    firstOrCreate drv d c
      = match rhcConnectionViolation d.tables
            { c with ID := d.rhcConnectionsSeq + 1, Sources := [] } with
        | some err =>
          { rhcConnection := c, err := some err,
            db := { d with rhcConnectionsSeq := d.rhcConnectionsSeq + 1 },
            trace := [.first .rhcConnections, .insert .rhcConnections] }
        | none =>
          { rhcConnection := { c with ID := d.rhcConnectionsSeq + 1 }, err := none,
            db := { tables := { d.tables with
                      rhcConnections := d.tables.rhcConnections ++
                        [{ c with ID := d.rhcConnectionsSeq + 1, Sources := [] }] },
                    rhcConnectionsSeq := d.rhcConnectionsSeq + 1 },
            trace := [.first .rhcConnections, .insert .rhcConnections] } := by
  unfold firstOrCreate
  simp only [hfirst]
  rw [candidates_of_zero_id _ c hid, hnone]
  simp [firstByID, hinsert, hid]

/-- When `FirstOrCreate` fails, `Create` returns its error. -/
theorem create_firstOrCreate_failed (drv : Driver) (s : RhcConnectionDaoImpl) (d : Database)
    (c : RhcConnection) (source0 : Source) (others : List Source) (e : Error)
    (hsources : c.Sources = source0 :: others)
    (hscan : drv.scanError .sources = none)
    (hexists : ∃ src ∈ d.tables.sources, (src.ID == source0.ID) = true)
    (hfound : (firstOrCreate drv d c).err = some e) :
    (s.Create drv d c).err = some e := by
  have hany : (d.tables.sources.any fun src => src.ID == source0.ID) = true :=
    List.any_eq_true.mpr hexists
  unfold RhcConnectionDaoImpl.Create
  rw [hsources]
  simp [hscan, hany, hfound]

/-- What a successful `Create` of a struct without id tells: the source exists,
`FirstOrCreate` succeeded and the join row was free. -/
theorem create_ok_inv (drv : Driver) (s : RhcConnectionDaoImpl) (d : Database)
    (c : RhcConnection) (source0 : Source) (others : List Source)
    (hsources : c.Sources = source0 :: others)
    (hscan : drv.scanError .sources = none)
    (hinsert : drv.insertError .sourceRhcConnections = none)
    (hok : (s.Create drv d c).err = none) :
    (∃ src ∈ d.tables.sources, (src.ID == source0.ID) = true) ∧
    (firstOrCreate drv d c).err = none ∧
    sourceRhcConnectionViolation (firstOrCreate drv d c).db.tables
      { SourceId := source0.ID, RhcConnectionId := (firstOrCreate drv d c).rhcConnection.ID,
        TenantId := s.TenantID } = none := by
  have hexists : ∃ src ∈ d.tables.sources, (src.ID == source0.ID) = true := by
    by_contra habsent
    rw [create_absent_source_notFound drv s d c source0 others hsources hscan habsent] at hok
    simp at hok
  have hfound : (firstOrCreate drv d c).err = none := by
    cases h : (firstOrCreate drv d c).err with
    | none => rfl
    | some e =>
      rw [create_firstOrCreate_failed drv s d c source0 others e hsources hscan hexists h] at hok
      simp at hok
  refine ⟨hexists, hfound, ?_⟩
  cases h : sourceRhcConnectionViolation (firstOrCreate drv d c).db.tables
      { SourceId := source0.ID, RhcConnectionId := (firstOrCreate drv d c).rhcConnection.ID,
        TenantId := s.TenantID } with
  | none => rfl
  | some e =>
    rw [(create_not_linked drv s d c source0 others e hsources hscan hexists hfound
      (Or.inr ⟨hinsert, h⟩)).2.1] at hok
    simp at hok

/-- After a successful `FirstOrCreate` of a struct without id on a database
with at most one row of the `rhc_id`, there is exactly one such row, the
struct carries its columns, and the other tables are as before. -/
theorem firstOrCreate_ok_row (drv : Driver) (d : Database) (c : RhcConnection)
    (hid : c.ID = 0) (hfirst : drv.firstError .rhcConnections = none)
    (hinsert : drv.insertError .rhcConnections = none)
    (huniq : (d.tables.rhcConnections.filter (fun r => r.RhcId == c.RhcId)).length ≤ 1)
    (hok : (firstOrCreate drv d c).err = none) :
    ∃ row, (firstOrCreate drv d c).db.tables.rhcConnections.filter
        (fun r => r.RhcId == c.RhcId) = [row] ∧
      (firstOrCreate drv d c).rhcConnection = { row with Sources := c.Sources } ∧
      (firstOrCreate drv d c).db.tables.sourceRhcConnections = d.tables.sourceRhcConnections ∧
      (firstOrCreate drv d c).db.tables.sources = d.tables.sources := by
  cases hK : d.tables.rhcConnections.filter (fun r => r.RhcId == c.RhcId) with
  | nil =>
    have hF := firstOrCreate_created drv d c hid hfirst hinsert hK
    cases hv : rhcConnectionViolation d.tables
        { c with ID := d.rhcConnectionsSeq + 1, Sources := [] } with
    | some e =>
      rw [hF, hv] at hok
      simp at hok
    | none =>
      rw [hF, hv]
      refine ⟨{ c with ID := d.rhcConnectionsSeq + 1, Sources := [] }, ?_, rfl, rfl, rfl⟩
      simp [List.filter_append, hK]
  | cons row more =>
    cases more with
    | nil =>
      rw [firstOrCreate_found drv d c row hid hfirst hK]
      exact ⟨row, hK, rfl, rfl, rfl⟩
    | cons _ _ =>
      rw [hK] at huniq
      simp at huniq


theorem violation_none_iff_free (tables : Store) (row : SourceRhcConnection) :
    sourceRhcConnectionViolation tables row = none ↔
      tables.sourceRhcConnections.filter (linked row.SourceId row.RhcConnectionId) = [] := by
  unfold sourceRhcConnectionViolation
  split
  · rename_i h
    simp only [List.any_eq_true] at h
    obtain ⟨r, hr, hp⟩ := h
    constructor
    · intro hc; simp at hc
    · intro hnil
      have : r ∈ tables.sourceRhcConnections.filter (linked row.SourceId row.RhcConnectionId) :=
        List.mem_filter.mpr ⟨hr, hp⟩
      rw [hnil] at this
      simp at this
  · rename_i h
    simp only [Bool.not_eq_true, List.any_eq_false] at h
    constructor
    · intro _
      apply List.filter_eq_nil_iff.mpr
      intro r hr
      have := h r hr
      simp only [linked, this, Bool.false_eq_true, not_false_eq_true]
    · intro _; rfl

theorem violation_of_linked (tables : Store) (row : SourceRhcConnection)
    (h : ∃ jt ∈ tables.sourceRhcConnections, linked row.SourceId row.RhcConnectionId jt = true) :
    sourceRhcConnectionViolation tables row = some
      (.message "duplicate key value violates unique constraint on source_rhc_connections") := by
  unfold sourceRhcConnectionViolation
  have hany : (tables.sourceRhcConnections.any
      fun r => r.SourceId == row.SourceId && r.RhcConnectionId == row.RhcConnectionId) = true :=
    List.any_eq_true.mpr h
  simp only [hany, if_true]

/-- The database a successful `Create` of a struct without id leaves, when the
database it started from had at most one row of the `rhc_id`. -/
theorem create_ok_state (drv : Driver) (s : RhcConnectionDaoImpl) (d : Database)
    (c : RhcConnection) (source0 : Source) (others : List Source)
    (hid : c.ID = 0) (hsources : c.Sources = source0 :: others)
    (hscan : drv.scanError .sources = none) (hfirst : drv.firstError .rhcConnections = none)
    (hinsC : drv.insertError .rhcConnections = none)
    (hinsJ : drv.insertError .sourceRhcConnections = none)
    (huniq : (d.tables.rhcConnections.filter (fun r => r.RhcId == c.RhcId)).length ≤ 1)
    (hok : (s.Create drv d c).err = none) :
    ∃ row, (s.Create drv d c).rhcConnection = some { row with Sources := c.Sources } ∧
      (s.Create drv d c).db.tables.rhcConnections.filter (fun r => r.RhcId == c.RhcId) = [row] ∧
      (s.Create drv d c).db.tables.sourceRhcConnections = d.tables.sourceRhcConnections ++
        [{ SourceId := source0.ID, RhcConnectionId := row.ID, TenantId := s.TenantID }] ∧
      d.tables.sourceRhcConnections.filter (linked source0.ID row.ID) = [] ∧
      (s.Create drv d c).db.tables.sources = d.tables.sources := by
  obtain ⟨hexists, hfound, hfree⟩ := create_ok_inv drv s d c source0 others hsources hscan hinsJ hok
  obtain ⟨row, hrow, hconn, hjoin, hsrc⟩ :=
    firstOrCreate_ok_row drv d c hid hfirst hinsC huniq hfound
  obtain ⟨h1, _, h3⟩ :=
    create_linked drv s d c source0 others hsources hscan hexists hfound hinsJ hfree
  have hfree2 := (violation_none_iff_free _ _).mp hfree
  simp only [hjoin, hconn] at hfree2
  refine ⟨row, ?_, ?_, ?_, hfree2, ?_⟩
  · rw [h1, hconn]
  · rw [h3]; exact hrow
  · rw [h3]; simp [hjoin, hconn]
  · rw [h3]; exact hsrc

/-- `Create` of a struct without id on a database that holds exactly one row
of the `rhc_id`, for a source that is already linked to it: the row is found,
the link fails on the constraint and the database stays as it was. -/
theorem create_again (drv : Driver) (s : RhcConnectionDaoImpl) (d : Database)
    (c row : RhcConnection) (source0 : Source) (others : List Source)
    (hid : c.ID = 0) (hsources : c.Sources = source0 :: others)
    (hscan : drv.scanError .sources = none) (hfirst : drv.firstError .rhcConnections = none)
    (hinsJ : drv.insertError .sourceRhcConnections = none)
    (hexists : ∃ src ∈ d.tables.sources, (src.ID == source0.ID) = true)
    (hrow : d.tables.rhcConnections.filter (fun r => r.RhcId == c.RhcId) = [row])
    (hlinked : ∃ jt ∈ d.tables.sourceRhcConnections, linked source0.ID row.ID jt = true) :
    (s.Create drv d c).rhcConnection = some { row with Sources := c.Sources } ∧
    (s.Create drv d c).err = some (.wrap "cannot link red hat connection to source"
      (.message "duplicate key value violates unique constraint on source_rhc_connections")) ∧
    (s.Create drv d c).db = d := by
  have hF := firstOrCreate_found drv d c row hid hfirst hrow
  have hfound : (firstOrCreate drv d c).err = none := by rw [hF]
  have hviol := violation_of_linked (firstOrCreate drv d c).db.tables
    { SourceId := source0.ID, RhcConnectionId := (firstOrCreate drv d c).rhcConnection.ID,
      TenantId := s.TenantID } (by rw [hF]; exact hlinked)
  obtain ⟨h1, h2, h3⟩ := create_not_linked drv s d c source0 others _ hsources hscan hexists
    hfound (Or.inr ⟨hinsJ, hviol⟩)
  refine ⟨?_, h2, ?_⟩
  · rw [h1, hF]
  · rw [h3, hF]

/-- `Create` of a struct without id on a database that holds exactly one row
of the `rhc_id`, for a source that is not linked to it yet: the row is found
and the join row is added. -/
theorem create_other_source (drv : Driver) (s : RhcConnectionDaoImpl) (d : Database)
    (c row : RhcConnection) (source0 : Source) (others : List Source)
    (hid : c.ID = 0) (hsources : c.Sources = source0 :: others)
    (hscan : drv.scanError .sources = none) (hfirst : drv.firstError .rhcConnections = none)
    (hinsJ : drv.insertError .sourceRhcConnections = none)
    (hexists : ∃ src ∈ d.tables.sources, (src.ID == source0.ID) = true)
    (hrow : d.tables.rhcConnections.filter (fun r => r.RhcId == c.RhcId) = [row])
    (hfree : d.tables.sourceRhcConnections.filter (linked source0.ID row.ID) = []) :
    (s.Create drv d c).err = none ∧
    (s.Create drv d c).db.tables.rhcConnections = d.tables.rhcConnections ∧
    (s.Create drv d c).db.tables.sourceRhcConnections = d.tables.sourceRhcConnections ++
      [{ SourceId := source0.ID, RhcConnectionId := row.ID, TenantId := s.TenantID }] := by
  have hF := firstOrCreate_found drv d c row hid hfirst hrow
  have hfound : (firstOrCreate drv d c).err = none := by rw [hF]
  have hviol : sourceRhcConnectionViolation (firstOrCreate drv d c).db.tables
      { SourceId := source0.ID, RhcConnectionId := (firstOrCreate drv d c).rhcConnection.ID,
        TenantId := s.TenantID } = none := by
    rw [violation_none_iff_free, hF]
    exact hfree
  obtain ⟨_, h2, h3⟩ := create_linked drv s d c source0 others hsources hscan hexists hfound
    hinsJ hviol
  refine ⟨h2, ?_, ?_⟩
  · rw [h3, hF]
  · rw [h3, hF]

/-- C11: when the existence check has passed and `FirstOrCreate` has succeeded
(so also when it has just inserted a new connection row), a failure `e` of the
insert of the join row, be it an error of the driver or a violated constraint,
makes `Create` return the non-nil error that wraps `e`, and the tables after
the call are the tables before it: the connection rows and the join rows are
those the call started from, so a connection row of that `rhc_id` is there
only if it was there before. -/
theorem create_join_failure_rolls_back (drv : Driver) (s : RhcConnectionDaoImpl) (d : Database)
    (c : RhcConnection) (source0 : Source) (others : List Source) (e : Error)
    (hsources : c.Sources = source0 :: others)
    (hscan : drv.scanError .sources = none)
    (hexists : ∃ src ∈ d.tables.sources, (src.ID == source0.ID) = true)
    (hfound : (firstOrCreate drv d c).err = none)
    (hfails : drv.insertError .sourceRhcConnections = some e ∨
      (drv.insertError .sourceRhcConnections = none ∧
        sourceRhcConnectionViolation (firstOrCreate drv d c).db.tables
          { SourceId := source0.ID, RhcConnectionId := (firstOrCreate drv d c).rhcConnection.ID,
            TenantId := s.TenantID } = some e)) :
    (s.Create drv d c).err = some (.wrap "cannot link red hat connection to source" e) ∧
    (s.Create drv d c).db.tables = d.tables ∧
    ((∀ r ∈ d.tables.rhcConnections, r.RhcId ≠ c.RhcId) →
      ∀ r ∈ (s.Create drv d c).db.tables.rhcConnections, r.RhcId ≠ c.RhcId) := by
  obtain ⟨_, h2, h3⟩ :=
    create_not_linked drv s d c source0 others e hsources hscan hexists hfound hfails
  refine ⟨h2, by rw [h3], ?_⟩
  intro hnone r hr
  rw [h3] at hr
  exact hnone r hr

theorem create_join_failure_rolls_back_witness :
    (firstOrCreate brokenLinkDriver linkedStore newConnection).db.tables.rhcConnections
      = [{ ID := 1, RhcId := "rhc-1", Extra := "{}" }] ∧
    (rhcDaoTenantOne.Create brokenLinkDriver linkedStore newConnection).err
      = some (.wrap "cannot link red hat connection to source" (.message "connection reset")) ∧
    (rhcDaoTenantOne.Create brokenLinkDriver linkedStore newConnection).db.tables
      = linkedStore.tables :=
  have h := create_join_failure_rolls_back brokenLinkDriver rhcDaoTenantOne linkedStore
    newConnection { ID := 1, TenantID := 0 } [] (.message "connection reset") rfl rfl
    (by decide) (by decide) (Or.inl rfl)
  ⟨by decide, h.1, h.2.1⟩

/-- C12: on a driver that runs every statement, for a struct without id and a
database with at most one connection row of its `rhc_id`, after a first
successful `Create` there is exactly one connection row `row` of that `rhc_id`
and exactly one join row that ties the source to it.  A second `Create` with
the same struct finds `row` (it returns the same connection and inserts none),
fails on the duplicate link and leaves the database as the first call left
it.  A `Create` with the same `rhc_id` for another existing source, not yet
linked to `row`, succeeds, leaves the connection rows as they are and adds
the join row of that source, so `row` is linked to both sources. -/
theorem create_twice_one_connection_one_link (drv : Driver) (s : RhcConnectionDaoImpl)
    (d : Database) (c : RhcConnection) (source0 : Source) (others : List Source)
    (hid : c.ID = 0) (hsources : c.Sources = source0 :: others)
    (hscan : drv.scanError .sources = none) (hfirst : drv.firstError .rhcConnections = none)
    (hinsC : drv.insertError .rhcConnections = none)
    (hinsJ : drv.insertError .sourceRhcConnections = none)
    (huniq : (d.tables.rhcConnections.filter (fun r => r.RhcId == c.RhcId)).length ≤ 1)
    (hok : (s.Create drv d c).err = none) :
    ∃ row,
      (s.Create drv d c).rhcConnection = some { row with Sources := c.Sources } ∧
      (s.Create drv d c).db.tables.rhcConnections.filter (fun r => r.RhcId == c.RhcId) = [row] ∧
      (s.Create drv d c).db.tables.sourceRhcConnections.filter (linked source0.ID row.ID)
        = [{ SourceId := source0.ID, RhcConnectionId := row.ID, TenantId := s.TenantID }] ∧
      (s.Create drv (s.Create drv d c).db c).rhcConnection
        = some { row with Sources := c.Sources } ∧
      (s.Create drv (s.Create drv d c).db c).err
        = some (.wrap "cannot link red hat connection to source"
            (.message "duplicate key value violates unique constraint on source_rhc_connections")) ∧
      (s.Create drv (s.Create drv d c).db c).db = (s.Create drv d c).db ∧
      ∀ (c2 : RhcConnection) (source2 : Source) (others2 : List Source),
        c2.ID = 0 → c2.RhcId = c.RhcId → c2.Sources = source2 :: others2 →
        (∃ src ∈ d.tables.sources, (src.ID == source2.ID) = true) →
        (s.Create drv d c).db.tables.sourceRhcConnections.filter (linked source2.ID row.ID) = [] →
        (s.Create drv (s.Create drv d c).db c2).err = none ∧
        (s.Create drv (s.Create drv d c).db c2).db.tables.rhcConnections.filter
          (fun r => r.RhcId == c.RhcId) = [row] ∧
        (s.Create drv (s.Create drv d c).db c2).db.tables.sourceRhcConnections
          = d.tables.sourceRhcConnections ++
            [{ SourceId := source0.ID, RhcConnectionId := row.ID, TenantId := s.TenantID },
             { SourceId := source2.ID, RhcConnectionId := row.ID, TenantId := s.TenantID }] := by
  obtain ⟨hexists, _, _⟩ := create_ok_inv drv s d c source0 others hsources hscan hinsJ hok
  obtain ⟨row, hconn, hrow, hjoin, hfree, hsrc⟩ :=
    create_ok_state drv s d c source0 others hid hsources hscan hfirst hinsC hinsJ huniq hok
  have hexists1 : ∃ src ∈ (s.Create drv d c).db.tables.sources, (src.ID == source0.ID) = true := by
    rw [hsrc]; exact hexists
  have hlinked : ∃ jt ∈ (s.Create drv d c).db.tables.sourceRhcConnections,
      linked source0.ID row.ID jt = true := by
    rw [hjoin]
    exact ⟨_, List.mem_append_right _ (List.mem_singleton.mpr rfl), by simp [linked]⟩
  obtain ⟨a1, a2, a3⟩ := create_again drv s (s.Create drv d c).db c row source0 others hid
    hsources hscan hfirst hinsJ hexists1 hrow hlinked
  refine ⟨row, hconn, hrow, ?_, a1, a2, a3, ?_⟩
  · rw [hjoin, List.filter_append, hfree]
    simp [linked]
  · intro c2 source2 others2 hid2 hkey hsources2 hexists2 hfree2
    have hexists2' :
        ∃ src ∈ (s.Create drv d c).db.tables.sources, (src.ID == source2.ID) = true := by
      rw [hsrc]; exact hexists2
    have hrow2 : (s.Create drv d c).db.tables.rhcConnections.filter
        (fun r => r.RhcId == c2.RhcId) = [row] := by rw [hkey]; exact hrow
    obtain ⟨b1, b2, b3⟩ := create_other_source drv s (s.Create drv d c).db c2 row source2 others2
      hid2 hsources2 hscan hfirst hinsJ hexists2' hrow2 hfree2
    refine ⟨b1, by rw [b2]; exact hrow, ?_⟩
    rw [b3, hjoin]
    simp

theorem create_twice_one_connection_one_link_witness :
    (rhcDaoTenantOne.Create healthyDriver
        (rhcDaoTenantOne.Create healthyDriver linkedStore newConnection).db newConnection).err
      = some (.wrap "cannot link red hat connection to source"
          (.message "duplicate key value violates unique constraint on source_rhc_connections")) ∧
    (rhcDaoTenantOne.Create healthyDriver
        (rhcDaoTenantOne.Create healthyDriver linkedStore newConnection).db newConnection).db
      = (rhcDaoTenantOne.Create healthyDriver linkedStore newConnection).db ∧
    (rhcDaoTenantOne.Create healthyDriver linkedStore newConnection).db.tables.rhcConnections
      = [{ ID := 1, RhcId := "rhc-1", Extra := "{}" }] ∧
    (rhcDaoTenantOne.Create healthyDriver linkedStore newConnection).db.tables.sourceRhcConnections
      = [{ SourceId := 1, RhcConnectionId := 1, TenantId := 1 }] :=
  (create_twice_one_connection_one_link healthyDriver rhcDaoTenantOne linkedStore newConnection
    { ID := 1, TenantID := 0 } [] rfl rfl rfl rfl rfl rfl (by decide) (by decide)).elim
    fun _ h => ⟨h.2.2.2.2.1, h.2.2.2.2.2.1, by decide, by decide⟩

/-! ## C13: `RhcConnectionDaoImpl.GetById` -/

theorem aggregateById_nil_of_unlinked (tables : Store) (tenant id : Int)
    (h : ¬ ∃ jt ∈ tables.sourceRhcConnections, jt.RhcConnectionId = id ∧ jt.TenantId = tenant) :
    aggregateById tables tenant id = [] := by
  have hjoined : tables.rhcConnections.flatMap (fun conn =>
      (tables.sourceRhcConnections.filter
        (fun jt => conn.ID == jt.RhcConnectionId && conn.ID == id && jt.TenantId == tenant)).map
        (fun jt => (conn, jt))) = [] := by
    rw [List.flatMap_eq_nil_iff]
    intro conn _
    rw [List.map_eq_nil_iff, List.filter_eq_nil_iff]
    intro jt hjt hp
    simp only [Bool.and_eq_true, beq_iff_eq] at hp
    exact h ⟨jt, hjt, by rw [← hp.1.1, hp.1.2], hp.2⟩
  unfold aggregateById
  simp only [hjoined]

/-- The joined rows of the aggregation are the pairs of a connection with the
id and a join row of that id in the tenant. -/
theorem joined_eq_links (conns : List RhcConnection) (join : List SourceRhcConnection)
    (tenant id : Int) :
    conns.flatMap (fun conn =>
        (join.filter
          (fun jt => conn.ID == jt.RhcConnectionId && conn.ID == id && jt.TenantId == tenant)).map
          (fun jt => (conn, jt)))
      = (conns.filter (fun r => r.ID == id)).flatMap (fun conn =>
          (join.filter (fun jt => jt.RhcConnectionId == id && jt.TenantId == tenant)).map
            (fun jt => (conn, jt))) := by
  induction conns with
  | nil => rfl
  | cons c rest ih =>
    rw [List.flatMap_cons, ih]
    by_cases hc : c.ID = id
    · have hkeep : (c :: rest).filter (fun r => r.ID == id)
          = c :: rest.filter (fun r => r.ID == id) := by simp [hc]
      rw [hkeep, List.flatMap_cons]
      congr 2
      apply List.filter_congr
      intro jt _
      subst hc
      by_cases hj : c.ID = jt.RhcConnectionId
      · simp [hj]
      · have h1 : (c.ID == jt.RhcConnectionId) = false := beq_eq_false_iff_ne.mpr hj
        have h2 : (jt.RhcConnectionId == c.ID) = false :=
          beq_eq_false_iff_ne.mpr (fun h => hj h.symm)
        rw [h1, h2]
        simp
    · have hskip : (c :: rest).filter (fun r => r.ID == id)
          = rest.filter (fun r => r.ID == id) := by simp [hc]
      have hnone : join.filter
          (fun jt => c.ID == jt.RhcConnectionId && c.ID == id && jt.TenantId == tenant) = [] := by
        rw [List.filter_eq_nil_iff]
        intro jt _ hp
        simp only [Bool.and_eq_true, beq_iff_eq] at hp
        exact hc hp.1.2
      rw [hskip, hnone]
      rfl

/-- The aggregation on a store with one connection of the id that has join
rows in the tenant: one row, made of that connection and those join rows. -/
theorem aggregateById_linked (tables : Store) (tenant id : Int) (conn : RhcConnection)
    (hconn : tables.rhcConnections.filter (fun r => r.ID == id) = [conn])
    (hlinks : linksOf tables tenant id ≠ []) :
    aggregateById tables tenant id = [aggregatedRowOf conn (linksOf tables tenant id)] := by
  unfold aggregateById
  simp only [joined_eq_links, hconn, List.flatMap_cons, List.flatMap_nil, List.append_nil]
  unfold linksOf at hlinks ⊢
  cases hl : tables.sourceRhcConnections.filter
      (fun jt => jt.RhcConnectionId == id && jt.TenantId == tenant) with
  | nil => exact absurd hl hlinks
  | cons jt more => simp [aggregatedRowOf, Function.comp_def]

/-- C13: when the cursor works (`Rows`, `ScanRows` and `Close` succeed),
`GetById` of a DAO with tenant `T`, on a store with one connection of the id:
when the connection has join rows in `T`, the aggregation yields exactly one
row, made of the connection and the source ids of these join rows, and
`GetById` returns the connection the mapper makes of that row, or the
mapper's error and no entity; when the id has no join row in `T`, the
aggregation yields no row and `GetById` returns `NotFound` of `rhcConnection`
and no entity, whether or not the connection exists; so it does when no
connection has the id.  Given more than one
row, the code after the query returns the error `unexpected number of
results` and no entity. -/
theorem getById_by_number_of_rows (cur : RowsDriver)
    (MapRowToRhcConnection : AggregatedRow → Except Error RhcConnection)
    (hrows : cur.rowsError = none) (hscan : cur.scanRowsError = none)
    (hclose : cur.closeError = none) :
    (∀ (s : RhcConnectionDaoImpl) (tables : Store) (id : Int) (conn rhcConnection : RhcConnection),
      tables.rhcConnections.filter (fun r => r.ID == id) = [conn] →
      linksOf tables s.TenantID id ≠ [] →
      MapRowToRhcConnection (aggregatedRowOf conn (linksOf tables s.TenantID id))
        = .ok rhcConnection →
      aggregateById tables s.TenantID id
        = [aggregatedRowOf conn (linksOf tables s.TenantID id)] ∧
      s.GetById cur MapRowToRhcConnection tables id
        = { entity := some rhcConnection, err := none }) ∧
    (∀ (s : RhcConnectionDaoImpl) (tables : Store) (id : Int) (conn : RhcConnection) (e : Error),
      tables.rhcConnections.filter (fun r => r.ID == id) = [conn] →
      linksOf tables s.TenantID id ≠ [] →
      MapRowToRhcConnection (aggregatedRowOf conn (linksOf tables s.TenantID id)) = .error e →
      s.GetById cur MapRowToRhcConnection tables id = { entity := none, err := some e }) ∧
    (∀ (s : RhcConnectionDaoImpl) (tables : Store) (id : Int),
      (¬ ∃ jt ∈ tables.sourceRhcConnections,
          jt.RhcConnectionId = id ∧ jt.TenantId = s.TenantID) →
      aggregateById tables s.TenantID id = [] ∧
      s.GetById cur MapRowToRhcConnection tables id
        = { entity := none, err := some (.notFound "rhcConnection") }) ∧
    (∀ (s : RhcConnectionDaoImpl) (tables : Store) (id : Int),
      tables.rhcConnections.filter (fun r => r.ID == id) = [] →
      s.GetById cur MapRowToRhcConnection tables id
        = { entity := none, err := some (.notFound "rhcConnection") }) ∧
    (∀ row1 row2 more, getByIdOnRows cur MapRowToRhcConnection (row1 :: row2 :: more)
      = { entity := none, err := some (.message "unexpected number of results") }) := by
  refine ⟨?_, ?_, ?_, ?_, ?_⟩
  · intro s tables id conn rhcConnection hconn hlinks hmap
    have hagg := aggregateById_linked tables s.TenantID id conn hconn hlinks
    refine ⟨hagg, ?_⟩
    unfold RhcConnectionDaoImpl.GetById
    rw [hagg]
    simp [getByIdOnRows, hrows, hscan, hclose, hmap]
  · intro s tables id conn e hconn hlinks hmap
    have hagg := aggregateById_linked tables s.TenantID id conn hconn hlinks
    unfold RhcConnectionDaoImpl.GetById
    rw [hagg]
    simp [getByIdOnRows, hrows, hscan, hclose, hmap]
  · intro s tables id h
    have hagg := aggregateById_nil_of_unlinked tables s.TenantID id h
    refine ⟨hagg, ?_⟩
    unfold RhcConnectionDaoImpl.GetById
    rw [hagg]
    simp [getByIdOnRows, hrows]
  · intro s tables id hnone
    unfold RhcConnectionDaoImpl.GetById aggregateById
    simp only [joined_eq_links, hnone, List.flatMap_nil]
    simp [getByIdOnRows, hrows]
  · intro row1 row2 more
    simp [getByIdOnRows, hrows, hscan, hclose]

theorem getById_by_number_of_rows_witness :
    rhcDaoTenantTwo.GetById healthyRows columnsMapper foreignLinkDb.tables 1
      = { entity := some { ID := 1, RhcId := "rhc-1", Extra := "{}" }, err := none } ∧
    (foreignLinkDb.tables.rhcConnections.any fun r => r.ID == 1) = true ∧
    rhcDaoTenantOne.GetById healthyRows columnsMapper foreignLinkDb.tables 1
      = { entity := none, err := some (.notFound "rhcConnection") } :=
  have h := getById_by_number_of_rows healthyRows columnsMapper rfl rfl rfl
  ⟨(h.1 rhcDaoTenantTwo foreignLinkDb.tables 1 { ID := 1, RhcId := "rhc-1", Extra := "{}" }
      { ID := 1, RhcId := "rhc-1", Extra := "{}" } (by decide) (by decide) rfl).2,
    by decide,
    (h.2.2.1 rhcDaoTenantOne foreignLinkDb.tables 1 (by decide)).2⟩

/-! ## C14: `RhcConnectionDaoImpl.Delete` -/

/-- When no connection has the id, `Delete` returns `NotFound` of
`rhcConnection` and leaves the database as it was. -/
theorem delete_absent_notFound (drv : Driver) (s : RhcConnectionDaoImpl) (d : Database)
    (id : Int) (habsent : ¬ ∃ r ∈ d.tables.rhcConnections, (r.ID == id) = true) :
    s.Delete drv d id = { err := some (.notFound "rhcConnection"), db := d } := by
  unfold RhcConnectionDaoImpl.Delete
  cases hfirst : drv.firstError .rhcConnections <;>
    simp [any_owner_absent _ _ habsent]

/-- C14, at the failing input: connection 1 is linked only to source 1, which
belongs to tenant 2, and its only join row is tagged with tenant 2; `Delete`
under tenant 1 returns no error and removes the connection row and the join
row. -/
theorem delete_removes_connection_of_other_tenant :
    (∀ src ∈ foreignLinkDb.tables.sources, src.TenantID ≠ rhcDaoTenantOne.TenantID) ∧
    (∀ jt ∈ foreignLinkDb.tables.sourceRhcConnections,
      jt.TenantId ≠ rhcDaoTenantOne.TenantID) ∧
    (rhcDaoTenantOne.Delete healthyDriver foreignLinkDb 1).err = none ∧
    (rhcDaoTenantOne.Delete healthyDriver foreignLinkDb 1).db.tables.rhcConnections = [] ∧
    (rhcDaoTenantOne.Delete healthyDriver foreignLinkDb 1).db.tables.sourceRhcConnections = [] := by
  decide

/-! ## C15: `GetById` and the tenant -/

/-- `GetById` of the authentication DAO: without a row of the id in the tenant
of the DAO it returns `NotFound` and no entity; an entity it returns is what
the hook made of a stored row with that id in that tenant. -/
theorem authentication_getById_tenant (env : Env κ) (add : authenticationDaoDbImpl) (cacher : κ)
    (db : Store) (id : String) :
    ((¬ ∃ a ∈ db.authentications, a.ID = id ∧ some a.TenantID = add.TenantID) →
      add.GetById env cacher db id
        = { entity := none, err := some (.notFound "authentication") }) ∧
    (∀ a, (add.GetById env cacher db id).entity = some a →
      ∃ row ∈ db.authentications, row.ID = id ∧ some row.TenantID = add.TenantID ∧
        a = (env.setMarketplaceTokenAuthExtraField cacher row).1) := by
  constructor
  · intro habsent
    have hnil : db.authentications.filter (fun a => a.ID == id && tenantIs add.TenantID a) = [] := by
      rw [List.filter_eq_nil_iff]
      intro a ha hp
      simp only [Bool.and_eq_true, beq_iff_eq, tenantIs] at hp
      exact habsent ⟨a, ha, hp.1, hp.2⟩
    unfold authenticationDaoDbImpl.GetById
    cases hfirst : env.firstError .authentications <;> simp [hnil]
  · intro a ha
    unfold authenticationDaoDbImpl.GetById at ha
    cases hfirst : env.firstError .authentications with
    | some e => simp [hfirst] at ha
    | none =>
      cases hsel : (db.authentications.filter
          (fun a => a.ID == id && tenantIs add.TenantID a)).head? with
      | none => simp [hfirst, hsel] at ha
      | some row =>
        have hmem : row ∈ db.authentications.filter
            (fun a => a.ID == id && tenantIs add.TenantID a) := List.mem_of_mem_head? hsel
        rw [List.mem_filter] at hmem
        simp only [Bool.and_eq_true, beq_iff_eq, tenantIs] at hmem
        refine ⟨row, hmem.1, hmem.2.1, hmem.2.2, ?_⟩
        cases hhook : env.setMarketplaceTokenAuthExtraField cacher row with
        | mk enriched result =>
          cases result with
          | some e => simp [hfirst, hsel, hhook] at ha
          | none =>
            simp [hfirst, hsel, hhook] at ha
            exact ha.symm

/-- C15, at the failing input: endpoint 7 and application authentication 7
belong to tenant 2; `GetById` of the endpoint DAO and of the application
authentication DAO of tenant 1 return them, without error, while `GetById` of
the authentication DAO of tenant 1 answers `NotFound` for the authentication
of tenant 2. -/
theorem getById_returns_row_of_other_tenant :
    endpointDaoTenantOne.GetById healthyDriver foreignOwnersStore 7
      = { entity := some { ID := 7, SourceID := 7, TenantID := 2, Role := "first",
                           Default := true },
          err := none } ∧
    appAuthDaoTenantOne.GetById healthyDriver foreignOwnersStore 7
      = { entity := some { ID := 7, ApplicationID := 7, AuthenticationUID := "u7",
                           TenantID := 2 },
          err := none } ∧
    tenantOneDao.GetById plainEnv none foreignOwnersStore "u7"
      = { entity := none, err := some (.notFound "authentication") } := by
  decide

/-! ## C16: the count of `List` -/

/-- The count `List` returns is the number of rows the filters select, of
whatever tenant. -/
theorem list_count_of_all_tenants (env : Env κ) (add : authenticationDaoDbImpl) (cacher : κ)
    (db : Store) (limit offset : Int) (filters : Filters) (q : Query Authentication)
    (rows : Authentications)
    (hq : env.applyFilters Query.Model filters = .ok q)
    (hrows : (add.List env cacher db limit offset filters).rows = some rows) :
    (add.List env cacher db limit offset filters).count
      = ((q.selected db.authentications).length : Int) := by
  revert hrows
  unfold authenticationDaoDbImpl.List
  simp only [hq]
  repeat' split
  all_goals first
    | (intro h; simp [ListOutcome.fail, ListOutcome.makeslicePanic] at h; done)
    | skip
  intro _
  rfl

/-- C16, at the failing input: of the four authentications of
`twoTenantStore` three belong to tenant 1; `List` under tenant 1 without
filters returns these three rows and the count 4. -/
theorem list_counts_other_tenants :
    (twoTenantStore.authentications.filter (fun a => a.TenantID == 1)).length = 3 ∧
    ((tenantOneDao.List plainEnv none twoTenantStore 10 0 []).rows.map List.length) = some 3 ∧
    (tenantOneDao.List plainEnv none twoTenantStore 10 0 []).count = 4 := by
  decide


/-! ## C17: `Create` and `BulkCreate` of the authentication DAO -/

/-- C17: on a DAO with tenant `T`, when the insert runs, `Create` of any
authentication `a` returns no error and adds to `authentications` the row `a`
with `TenantID = T`, whatever tenant `a` carried; the struct of the caller
carries `T` as well; the only statement issued is the insert, so no owner is
looked up and no other table changes, whether the owner exists or not.
`BulkCreate` is `Create`, for every input. -/
theorem authentication_create_stamps_tenant (drv : Driver) (add : authenticationDaoDbImpl)
    (db : Store) (a : Authentication) (T : Int)
    (htenant : add.TenantID = some T)
    (hinsert : drv.insertError .authentications = none) :
    (add.Create drv db a).err = none ∧ (add.Create drv db a).panic = none ∧
    (add.Create drv db a).db
      = { db with authentications :=
            db.authentications ++ [{ a with TenantID := T, Extra := none }] } ∧
    (add.Create drv db a).authentication = { a with TenantID := T } ∧
    (add.Create drv db a).trace = [.insert .authentications] ∧
    (∀ (add2 : authenticationDaoDbImpl) (db2 : Store) (b : Authentication),
      add2.BulkCreate drv db2 b = add2.Create drv db2 b) := by
  refine ⟨?_, ?_, ?_, ?_, ?_, fun _ _ _ => rfl⟩ <;>
    simp [authenticationDaoDbImpl.Create, htenant, hinsert]

theorem authentication_create_stamps_tenant_witness :
    (emptyStore.sources.any fun src => src.ID == orphanAuthentication.ResourceID) = false ∧
    (tenantOneDao.Create healthyDriver emptyStore orphanAuthentication).err = none ∧
    (tenantOneDao.Create healthyDriver emptyStore orphanAuthentication).db
      = { emptyStore with authentications := [{ orphanAuthentication with TenantID := 1 }] } :=
  have h := authentication_create_stamps_tenant healthyDriver tenantOneDao emptyStore
    orphanAuthentication 1 rfl rfl
  ⟨by decide, h.1, h.2.2.1⟩

/-! ## C18: the checks of the endpoint DAO -/

theorem firstByKey_fold_some {α : Type} (key : α → Int) :
    ∀ (rows : List α) (b : α), ∃ r,
      rows.foldl (fun best r =>
        match best with
        | none => some r
        | some b => if key r < key b then some r else some b) (some b) = some r := by
  intro rows
  induction rows with
  | nil => intro b; exact ⟨b, rfl⟩
  | cons x rest ih =>
    intro b
    simp only [List.foldl_cons]
    split
    · exact ih x
    · exact ih b

theorem firstByKey_eq_none_iff {α : Type} (key : α → Int) (rows : List α) :
    firstByKey key rows = none ↔ rows = [] := by
  cases rows with
  | nil => simp [firstByKey]
  | cons x rest =>
    obtain ⟨r, hr⟩ := firstByKey_fold_some key rest x
    simp only [firstByKey, List.foldl_cons, hr]
    simp

/-- `First` fails exactly when the driver fails or no row is selected. -/
theorem firstRow_error_iff {α : Type} (driverError : Option Error) (key : α → Int)
    (rows : List α) :
    (∃ e, firstRow driverError key rows = .error e) ↔ driverError ≠ none ∨ rows = [] := by
  unfold firstRow
  cases driverError with
  | some e => simp
  | none =>
    cases hb : firstByKey key rows with
    | none => simp [(firstByKey_eq_none_iff key rows).mp hb]
    | some row =>
      have hne : rows ≠ [] := fun h => by
        rw [(firstByKey_eq_none_iff key rows).mpr h] at hb
        simp at hb
      simp [hne]

theorem filter_nil_iff_none {β : Type} (p : β → Bool) (l : List β) :
    l.filter p = [] ↔ ¬ ∃ x ∈ l, p x = true := by
  rw [List.filter_eq_nil_iff]
  constructor
  · rintro h ⟨x, hx, hp⟩; exact h x hx hp
  · intro h x hx hp; exact h ⟨x, hx, hp⟩

theorem canEndpointBeSetAsDefault_iff (drv : Driver) (a : endpointDaoImpl) (db : Store)
    (s : Int) :
    a.CanEndpointBeSetAsDefaultForSource drv db s = true ↔
      drv.firstError .endpoints ≠ none ∨
        db.endpoints.filter (fun e => e.Default == true && e.SourceID == s) = [] := by
  rw [← firstRow_error_iff _ (fun e : Endpoint => e.ID)]
  unfold endpointDaoImpl.CanEndpointBeSetAsDefaultForSource
  cases firstRow (drv.firstError .endpoints) (fun e : Endpoint => e.ID)
    (db.endpoints.filter (fun e => e.Default == true && e.SourceID == s)) <;> simp

theorem isRoleUnique_iff (drv : Driver) (a : endpointDaoImpl) (db : Store) (r : String)
    (s : Int) :
    a.IsRoleUniqueForSource drv db r s = true ↔
      drv.firstError .endpoints ≠ none ∨
        db.endpoints.filter (fun e => e.Role == r && e.SourceID == s) = [] := by
  rw [← firstRow_error_iff _ (fun e : Endpoint => e.ID)]
  unfold endpointDaoImpl.IsRoleUniqueForSource
  cases firstRow (drv.firstError .endpoints) (fun e : Endpoint => e.ID)
    (db.endpoints.filter (fun e => e.Role == r && e.SourceID == s)) <;> simp

theorem sourceHasEndpoints_false_iff (drv : Driver) (a : endpointDaoImpl) (db : Store)
    (s : Int) :
    a.SourceHasEndpoints drv db s = false ↔
      drv.firstError .endpoints ≠ none ∨
        db.endpoints.filter (fun e => e.SourceID == s) = [] := by
  rw [← firstRow_error_iff _ (fun e : Endpoint => e.ID)]
  unfold endpointDaoImpl.SourceHasEndpoints
  cases firstRow (drv.firstError .endpoints) (fun e : Endpoint => e.ID)
    (db.endpoints.filter (fun e => e.SourceID == s)) <;> simp

/-- C18: when the statement runs, `CanEndpointBeSetAsDefaultForSource(s)` is
true exactly when no endpoint with `source_id = s` has `default = true`, and
`IsRoleUniqueForSource(r, s)` is true exactly when no endpoint with
`source_id = s` has `role = r`.  Whenever `SourceHasEndpoints(s)` is false,
both checks are true, for every role.  Endpoints of other sources added to
the table change none of the three answers for `s`. -/
theorem endpoint_checks (drv : Driver) (a : endpointDaoImpl) (db : Store) (s : Int) :
    (drv.firstError .endpoints = none →
      (a.CanEndpointBeSetAsDefaultForSource drv db s = true ↔
        ¬ ∃ e ∈ db.endpoints, e.SourceID = s ∧ e.Default = true) ∧
      (∀ r, a.IsRoleUniqueForSource drv db r s = true ↔
        ¬ ∃ e ∈ db.endpoints, e.SourceID = s ∧ e.Role = r)) ∧
    (a.SourceHasEndpoints drv db s = false →
      a.CanEndpointBeSetAsDefaultForSource drv db s = true ∧
      ∀ r, a.IsRoleUniqueForSource drv db r s = true) ∧
    (∀ others : List Endpoint, (∀ e ∈ others, e.SourceID ≠ s) →
      a.CanEndpointBeSetAsDefaultForSource drv
          { db with endpoints := db.endpoints ++ others } s
        = a.CanEndpointBeSetAsDefaultForSource drv db s ∧
      (∀ r, a.IsRoleUniqueForSource drv { db with endpoints := db.endpoints ++ others } r s
        = a.IsRoleUniqueForSource drv db r s) ∧
      a.SourceHasEndpoints drv { db with endpoints := db.endpoints ++ others } s
        = a.SourceHasEndpoints drv db s) := by
  refine ⟨fun hruns => ⟨?_, fun r => ?_⟩, fun hnone => ?_, fun others hothers => ?_⟩
  · rw [canEndpointBeSetAsDefault_iff, filter_nil_iff_none]
    simp only [hruns, ne_eq, not_true_eq_false, false_or, Bool.and_eq_true, beq_iff_eq]
    constructor
    · rintro h ⟨e, he, h1, h2⟩; exact h ⟨e, he, h2, h1⟩
    · rintro h ⟨e, he, h1, h2⟩; exact h ⟨e, he, h2, h1⟩
  · rw [isRoleUnique_iff, filter_nil_iff_none]
    simp only [hruns, ne_eq, not_true_eq_false, false_or, Bool.and_eq_true, beq_iff_eq]
    constructor
    · rintro h ⟨e, he, h1, h2⟩; exact h ⟨e, he, h2, h1⟩
    · rintro h ⟨e, he, h1, h2⟩; exact h ⟨e, he, h2, h1⟩
  · rw [sourceHasEndpoints_false_iff] at hnone
    have hsub : ∀ p : Endpoint → Bool,
        drv.firstError .endpoints ≠ none ∨
          db.endpoints.filter (fun e => p e && e.SourceID == s) = [] := by
      intro p
      rcases hnone with h | h
      · exact Or.inl h
      · right
        rw [List.filter_eq_nil_iff] at h ⊢
        intro e he hp
        simp only [Bool.and_eq_true] at hp
        exact h e he hp.2
    exact ⟨(canEndpointBeSetAsDefault_iff drv a db s).mpr (hsub _),
      fun r => (isRoleUnique_iff drv a db r s).mpr (hsub _)⟩
  · have hdrop : ∀ p : Endpoint → Bool,
        others.filter (fun e => p e && e.SourceID == s) = [] := by
      intro p
      rw [List.filter_eq_nil_iff]
      intro e he hp
      simp only [Bool.and_eq_true, beq_iff_eq] at hp
      exact hothers e he hp.2
    have hdrop2 : others.filter (fun e => e.SourceID == s) = [] := by
      rw [List.filter_eq_nil_iff]
      intro e he hp
      simp only [beq_iff_eq] at hp
      exact hothers e he hp
    refine ⟨?_, fun r => ?_, ?_⟩
    · simp only [endpointDaoImpl.CanEndpointBeSetAsDefaultForSource, List.filter_append,
        hdrop (fun e => e.Default == true), List.append_nil]
    · simp only [endpointDaoImpl.IsRoleUniqueForSource, List.filter_append,
        hdrop (fun e => e.Role == r), List.append_nil]
    · simp only [endpointDaoImpl.SourceHasEndpoints, List.filter_append, hdrop2,
        List.append_nil]

theorem endpoint_checks_witness :
    (endpointDaoTenantOne.CanEndpointBeSetAsDefaultForSource healthyDriver endpointsStore 1
        = true ↔
      ¬ ∃ e ∈ endpointsStore.endpoints, e.SourceID = 1 ∧ e.Default = true) ∧
    endpointDaoTenantOne.CanEndpointBeSetAsDefaultForSource healthyDriver endpointsStore 1
      = false ∧
    (endpointDaoTenantOne.CanEndpointBeSetAsDefaultForSource healthyDriver endpointsStore 3
        = true ∧
      ∀ r, endpointDaoTenantOne.IsRoleUniqueForSource healthyDriver endpointsStore r 3 = true) :=
  have h := endpoint_checks healthyDriver endpointDaoTenantOne endpointsStore
  ⟨((h 1).1 rfl).1, by decide, (h 3).2.1 (by decide)⟩


/-! ## C19: the loop of `SourceListAuthentications` -/

/-- The loop panics as soon as its index reaches the length of the slice. -/
theorem fillOut_panics (ToResponse : Authentication → String) (auths : Authentications) :
    ∀ (remaining i : Nat) (out : List String), i ≤ auths.length → auths.length < i + remaining →
      fillOut ToResponse auths remaining i out
        = .error (.indexOutOfRange auths.length auths.length) := by
  intro remaining
  induction remaining with
  | zero => intro i out h1 h2; omega
  | succ n ih =>
    intro i out h1 h2
    unfold fillOut
    by_cases hi : i < auths.length
    · rw [List.getElem?_eq_getElem hi]
      exact ih (i + 1) _ hi (by omega)
    · have hlen : i = auths.length := by omega
      subst hlen
      simp

/-- C19, at the failing input: source 1 owns 101 authentications.
`ListForSource(1, 100, 0, nil)` returns 100 rows and the count 101, and
`SourceListAuthentications` stops in the panic of `auths[100]` on a slice of
length 100 instead of answering. -/
theorem sourceListAuthentications_index_out_of_range :
    ((tenantOneDao.ListForSource plainEnv none crowdedStore 1 100 0 []).rows.map List.length)
      = some 100 ∧
    (tenantOneDao.ListForSource plainEnv none crowdedStore 1 100 0 []).count = 101 ∧
    SourceListAuthentications listHandlerEnv plainEnv none crowdedStore sourceOneRequest
      = { err := none, response := none, panic := some (.indexOutOfRange 100 100) } := by
  decide

end SourcesApi
